import Mathlib

/-
Verification of the AQI core of the EcoPredict air-quality dashboard:
the breakpoint sub-index interpolation and category assignment
(app/utils.py `classify_aqi` and app/external_data.py `classify_aqi`,
which contain identical breakpoint tables and helper functions),
the table-level classifier, the synthetic data generator
(app/external_data.py `generate_realistic_air_quality_data`) and the
location-profile resolver (app/external_data.py `get_location_profile`).

Concentrations and index values are embedded as rationals (the Python
code computes with floats; the algorithm itself is exact rational
arithmetic, and all decimal literals of the source are exact in ℚ).
A missing / NaN cell is embedded as `Option.none`.
-/

namespace EcoPredict

/-- One breakpoint segment `(bp_low, bp_high, i_low, i_high)` of the static
per-pollutant table in `classify_aqi`. -/
structure Seg where
  bp_low : ℚ
  bp_high : ℚ
  i_low : ℚ
  i_high : ℚ
deriving DecidableEq

/-- Association-list lookup with string keys, first match wins; models a
Python dict lookup (`breakpoints[pollutant]`) and `key in dict`. -/
def lookupA {α : Type} : List (String × α) → String → Option α
  | [], _ => none
  | (k, v) :: rest, key => if key = k then some v else lookupA rest key

/-- The `'pm25'` breakpoint list of `classify_aqi`. -/
def pm25segs : List Seg :=
  [⟨0, 12.0, 0, 50⟩, ⟨12.1, 35.4, 51, 100⟩, ⟨35.5, 55.4, 101, 150⟩,
   ⟨55.5, 150.4, 151, 200⟩, ⟨150.5, 250.4, 201, 300⟩, ⟨250.5, 500.4, 301, 500⟩]

/-- The `'pm10'` breakpoint list of `classify_aqi`. -/
def pm10segs : List Seg :=
  [⟨0, 54, 0, 50⟩, ⟨55, 154, 51, 100⟩, ⟨155, 254, 101, 150⟩,
   ⟨255, 354, 151, 200⟩, ⟨355, 424, 201, 300⟩, ⟨425, 604, 301, 500⟩]

/-- The `'o3'` breakpoint list of `classify_aqi`. -/
def o3segs : List Seg :=
  [⟨0, 54, 0, 50⟩, ⟨55, 70, 51, 100⟩, ⟨71, 85, 101, 150⟩,
   ⟨86, 105, 151, 200⟩, ⟨106, 200, 201, 300⟩]

/-- The `'co'` breakpoint list of `classify_aqi`. -/
def cosegs : List Seg :=
  [⟨0, 4400, 0, 50⟩, ⟨4401, 9400, 51, 100⟩, ⟨9401, 12400, 101, 150⟩,
   ⟨12401, 15400, 151, 200⟩, ⟨15401, 30400, 201, 300⟩]

/-- The `'so2'` breakpoint list of `classify_aqi`. -/
def so2segs : List Seg :=
  [⟨0, 35, 0, 50⟩, ⟨36, 75, 51, 100⟩, ⟨76, 185, 101, 150⟩,
   ⟨186, 304, 151, 200⟩]

/-- The `'no2'` breakpoint list of `classify_aqi`. -/
def no2segs : List Seg :=
  [⟨0, 53, 0, 50⟩, ⟨54, 100, 51, 100⟩, ⟨101, 360, 101, 150⟩,
   ⟨361, 649, 151, 200⟩]

/-- The static `breakpoints` dict of `classify_aqi` (identical in
app/utils.py lines 176-189 and app/external_data.py lines 105-118),
in Python dict insertion order. -/
def breakpointTable : List (String × List Seg) :=
  [("pm25", pm25segs), ("pm10", pm10segs), ("o3", o3segs),
   ("co", cosegs), ("so2", so2segs), ("no2", no2segs)]

/-- `breakpoints[pollutant]` as a partial lookup; `none` models
`pollutant not in breakpoints`. -/
def breakpoints (pollutant : String) : Option (List Seg) :=
  lookupA breakpointTable pollutant

/-- `breakpoints.keys()` in dict order: the six recognized pollutants. -/
def aqiKeys : List String := breakpointTable.map Prod.fst

/-- The segment list of a pollutant, empty for an unrecognized one. -/
def segsOf (pollutant : String) : List Seg := (breakpoints pollutant).getD []

/-- `bp_low <= concentration <= bp_high`: the containment test of the
segment-scanning loop in `calculate_sub_index`. -/
def segContains (s : Seg) (c : ℚ) : Prop := s.bp_low ≤ c ∧ c ≤ s.bp_high

instance (s : Seg) (c : ℚ) : Decidable (segContains s c) := by
  unfold segContains; infer_instance

/-- The interpolation formula
`((i_high - i_low) / (bp_high - bp_low)) * (c - bp_low) + i_low`
returned by `calculate_sub_index` for a containing segment. -/
def interp (s : Seg) (c : ℚ) : ℚ :=
  ((s.i_high - s.i_low) / (s.bp_high - s.bp_low)) * (c - s.bp_low) + s.i_low

/-- The for-loop of `calculate_sub_index`: scan the segments in table
order and return the interpolation of the first segment containing `c`,
`none` (NaN) when no segment contains it. -/
def findSeg : List Seg → ℚ → Option ℚ
  | [], _ => none
  | s :: rest, c => if segContains s c then some (interp s c) else findSeg rest c

/-- `calculate_sub_index(concentration, pollutant)` of `classify_aqi`
(app/utils.py lines 200-206, identical in app/external_data.py lines
129-135): NaN in, or unrecognized pollutant, gives NaN; otherwise the
first containing breakpoint segment is interpolated; NaN if none
contains the concentration. -/
def calculate_sub_index (concentration : Option ℚ) (pollutant : String) : Option ℚ :=
  match concentration with
  | none => none
  | some c =>
    match breakpoints pollutant with
    | none => none
    | some segs => findSeg segs c

/-- Unfolding equation for a present concentration. -/
theorem calculate_sub_index_some (c : ℚ) (p : String) :
    calculate_sub_index (some c) p =
      match breakpoints p with
      | none => none
      | some segs => findSeg segs c := rfl

/-- Reduce `calculate_sub_index` to the segment scan of a known table. -/
theorem calculate_sub_index_eq (c : ℚ) (p : String) (segs : List Seg)
    (hbp : breakpoints p = some segs) :
    calculate_sub_index (some c) p = findSeg segs c := by
  rw [calculate_sub_index_some, hbp]

/-- One band of the `categories` dict of `classify_aqi`:
`(i_low, i_high) : name`. -/
structure CatBand where
  c_lo : ℚ
  c_hi : ℚ
  cat : String
deriving DecidableEq

/-- The `categories` dict of `classify_aqi` in insertion order; note the
source's final band is `(301, 501)`. -/
def categoriesList : List CatBand :=
  [⟨0, 50, "Boa"⟩, ⟨51, 100, "Moderada"⟩, ⟨101, 150, "Ruim para Grupos Sensíveis"⟩,
   ⟨151, 200, "Ruim"⟩, ⟨201, 300, "Muito Ruim"⟩, ⟨301, 501, "Perigosa"⟩]

/-- The band-scanning loop of `get_category`: first band with
`i_low <= aqi <= i_high` wins, falling through to `'Perigosa'`. -/
def lookupCat : List CatBand → ℚ → String
  | [], _ => "Perigosa"
  | b :: rest, aqi => if b.c_lo ≤ aqi ∧ aqi ≤ b.c_hi then b.cat else lookupCat rest aqi

/-- `get_category(aqi)` of `classify_aqi` (app/utils.py lines 223-229,
identical in app/external_data.py lines 147-153): NaN gives
`'Indisponível'`, otherwise the first matching category band, with
`'Perigosa'` as the fall-through. -/
def get_category : Option ℚ → String
  | none => "Indisponível"
  | some aqi => lookupCat categoriesList aqi

/-- The specification's category map, written from the spec's words:
closed integer bands `[0,50]..[301,500]`, NaN to `'Indisponível'`, and
everything outside all bands clamped to `'Perigosa'`. Used only to be
compared with `get_category`, which is embedded from the source. -/
def specCategory : Option ℚ → String
  | none => "Indisponível"
  | some v =>
    if 0 ≤ v ∧ v ≤ 50 then "Boa"
    else if 51 ≤ v ∧ v ≤ 100 then "Moderada"
    else if 101 ≤ v ∧ v ≤ 150 then "Ruim para Grupos Sensíveis"
    else if 151 ≤ v ∧ v ≤ 200 then "Ruim"
    else if 201 ≤ v ∧ v ≤ 300 then "Muito Ruim"
    else if 301 ≤ v ∧ v ≤ 500 then "Perigosa"
    else "Perigosa"

/-- The NaN-skipping running maximum underlying
`df[aqi_cols].max(axis=1)`: fold the row's sub-indices, ignoring NaN
(`none`) entries; `none` when every entry is NaN. -/
def nanmaxAux : Option ℚ → List (Option ℚ) → Option ℚ
  | acc, [] => acc
  | acc, x :: xs =>
    nanmaxAux (match acc, x with
      | none, x2 => x2
      | some a, none => some a
      | some a, some b => some (max a b)) xs

/-- Row-wise maximum of sub-indices with NaN entries skipped. -/
def nanmax (xs : List (Option ℚ)) : Option ℚ := nanmaxAux none xs

/-- The index-range pairs occurring in the breakpoint tables. -/
def idxPairs : List (ℚ × ℚ) :=
  [(0, 50), (51, 100), (101, 150), (151, 200), (201, 300), (301, 500)]

/- The table-level classifier of app/external_data.py `classify_aqi`
(lines 99-182).  A pandas DataFrame is embedded column-major: a fixed
row count and a list of named columns.  A cell is a number, NaN, or a
non-numeric (string) value; comparing a string cell against a breakpoint
bound raises a TypeError in Python, embedded as `Except.error`.  The
`try/except` wrapper of the source is embedded by letting the body
return `Except.error` carrying the table as mutated so far (Python
mutates `df` in place, and every statement that can raise does so before
its own assignment lands). -/

/-- One DataFrame cell: a number, NaN, or a non-numeric (string) value. -/
inductive Value where
  | num (q : ℚ)
  | nan
  | vstr (s : String)
deriving DecidableEq

/-- `pd.isna` on a cell. -/
def isNA : Value → Bool
  | .nan => true
  | _ => false

/-- Whether a cell holds a non-numeric value. -/
def isStrV : Value → Bool
  | .vstr _ => true
  | _ => false

/-- A numeric-or-NaN cell as an optional rational. -/
def toOpt : Value → Option ℚ
  | .num q => some q
  | _ => none

/-- An optional rational as a cell (`none` is NaN). -/
def optToValue : Option ℚ → Value
  | some q => .num q
  | none => .nan

/-- A DataFrame: a row count and named columns in order. -/
structure Table where
  nrows : Nat
  cols : List (String × List Value)
deriving DecidableEq

/-- `df.columns`. -/
def names (t : Table) : List String := t.cols.map Prod.fst

/-- `df[c]`: the cells of a column (an all-NaN column if absent). -/
def getColD (t : Table) (c : String) : List Value :=
  (lookupA t.cols c).getD (List.replicate t.nrows Value.nan)

/-- One cell of a column, NaN when out of range. -/
def cell (t : Table) (c : String) (i : Nat) : Value :=
  ((getColD t c).get? i).getD Value.nan

/-- `df[c] = vs`: replace the column if the name exists, else append it. -/
def setColList : List (String × List Value) → String → List Value →
    List (String × List Value)
  | [], c, vs => [(c, vs)]
  | (k, old) :: rest, c, vs =>
    if c = k then (k, vs) :: rest else (k, old) :: setColList rest c vs

/-- Column assignment on a table. -/
def setCol (t : Table) (c : String) (vs : List Value) : Table :=
  ⟨t.nrows, setColList t.cols c vs⟩

/-- `calculate_sub_index` applied to one raw cell: NaN in or unrecognized
pollutant gives NaN before any comparison happens; a numeric cell is
scanned through the segments; a non-numeric cell reaches the first
`bp_low <= concentration` comparison of the loop and raises
(`Except.error`) — unless the segment list is empty and the loop never
compares. -/
def calcSubIndexV (v : Value) (p : String) : Except Unit Value :=
  if isNA v = true ∨ breakpoints p = none then .ok Value.nan
  else
    match v with
    | .num c => .ok (optToValue (findSeg ((breakpoints p).getD []) c))
    | .vstr _ => if (breakpoints p).getD [] = [] then .ok Value.nan else .error ()
    | .nan => .ok Value.nan

/-- The sub-index of one numeric-or-NaN cell, as a cell. -/
def subIdxVal (p : String) (v : Value) : Value :=
  optToValue (calculate_sub_index (toOpt v) p)

/-- `df[poll].apply(lambda x: calculate_sub_index(x, poll))`: map the
sub-index over a column, raising if any cell raises. -/
def colMapExc (p : String) : List Value → Except Unit (List Value)
  | [] => .ok []
  | v :: vs =>
    match calcSubIndexV v p with
    | .error e => .error e
    | .ok w =>
      match colMapExc p vs with
      | .error e => .error e
      | .ok ws => .ok (w :: ws)

/-- The name of a computed sub-index column. -/
def aqiColName (p : String) : String := "AQI_" ++ p

/-- One iteration of `for poll in breakpoints.keys(): if poll in
df.columns: df[f'AQI_{poll}'] = df[poll].apply(...)`.  On a raise the
error carries the table unchanged (the assignment never lands). -/
def addAQIStep (t : Table) (p : String) : Except Table Table :=
  if p ∈ names t then
    match colMapExc p (getColD t p) with
    | .error _ => .error t
    | .ok vals => .ok (setCol t (aqiColName p) vals)
  else .ok t

/-- The whole sub-index loop over the pollutant keys. -/
def addAQIFold : Table → List String → Except Table Table
  | t, [] => .ok t
  | t, p :: ps =>
    match addAQIStep t p with
    | .error tp => .error tp
    | .ok t2 => addAQIFold t2 ps

/-- One comparison step of the row-wise `max(axis=1)` with NaN skipped;
a non-numeric cell raises. -/
def maxStep : Option ℚ → Value → Except Unit (Option ℚ)
  | acc, .nan => .ok acc
  | none, .num q => .ok (some q)
  | some a, .num q => .ok (some (max a q))
  | _, .vstr _ => .error ()

/-- Row-wise maximum over the listed cells. -/
def rowMaxAux : Option ℚ → List Value → Except Unit (Option ℚ)
  | acc, [] => .ok acc
  | acc, v :: vs =>
    match maxStep acc v with
    | .error e => .error e
    | .ok acc2 => rowMaxAux acc2 vs

/-- `max` of one row across the sub-index columns, skipping NaN. -/
def rowMaxV (vs : List Value) : Except Unit (Option ℚ) := rowMaxAux none vs

/-- `aqi_cols = [f'AQI_{poll}' for poll in breakpoints.keys() if
f'AQI_{poll}' in df.columns]`, folded over a key list. -/
def aqiColsAux (t : Table) : List String → List String
  | [] => []
  | p :: ps =>
    if aqiColName p ∈ names t then aqiColName p :: aqiColsAux t ps
    else aqiColsAux t ps

/-- The computed sub-index columns present in the table. -/
def aqiColsOf (t : Table) : List String := aqiColsAux t aqiKeys

/-- `df[aqi_cols].max(axis=1)` row by row. -/
def overallLoop (t : Table) (aqiCols : List String) :
    List Nat → Except Unit (List (Option ℚ))
  | [] => .ok []
  | i :: is =>
    match rowMaxV (aqiCols.map (fun c => cell t c i)) with
    | .error e => .error e
    | .ok v =>
      match overallLoop t aqiCols is with
      | .error e => .error e
      | .ok vs => .ok (v :: vs)

/-- A draw of `random.uniform(a, b)` / `np.random.uniform(a, b)`,
parameterized by an abstract sample `u` (nondeterminism oracle). -/
def uniformDraw (a b u : ℚ) : ℚ := a + (b - a) * u

/-- The fixed default ranges of the missing-weather backfill. -/
def weatherDefaults : List (String × ℚ × ℚ) :=
  [("temperature", 15, 30), ("humidity", 50, 85),
   ("pressure", 1010, 1020), ("wind_speed", 2, 8)]

/-- The missing-weather backfill loop: for each absent feature, add a
column of per-row uniform draws (`wg` is the randomness oracle). -/
def backfillFold (wg : String → Nat → ℚ) : Table → List (String × ℚ × ℚ) → Table
  | t, [] => t
  | t, (f, a, b) :: rest =>
    backfillFold wg
      (if f ∈ names t then t
       else setCol t f ((List.range t.nrows).map
         (fun i => Value.num (uniformDraw a b (wg f i)))))
      rest

/-- The missing-weather backfill of `classify_aqi`. -/
def backfillWeather (wg : String → Nat → ℚ) (t : Table) : Table :=
  backfillFold wg t weatherDefaults

/-- The body of app/external_data.py `classify_aqi` inside the `try`:
compute sub-index columns, the overall row maximum, the category column,
and the weather backfill; an internal raise is an `Except.error` carrying
the table as mutated so far. -/
def classifyBody (wg : String → Nat → ℚ) (t : Table) : Except Table Table :=
  match addAQIFold t aqiKeys with
  | .error tp => .error tp
  | .ok t1 =>
    if aqiColsOf t1 = [] then
      .ok (backfillWeather wg
        (setCol (setCol t1 "Overall_AQI" (List.replicate t1.nrows Value.nan))
          "AQI_Category" (List.replicate t1.nrows (Value.vstr "Indisponível"))))
    else
      match overallLoop t1 (aqiColsOf t1) (List.range t1.nrows) with
      | .error _ => .error t1
      | .ok ov =>
        .ok (backfillWeather wg
          (setCol (setCol t1 "Overall_AQI" (ov.map optToValue))
            "AQI_Category" (ov.map (fun o => Value.vstr (get_category o)))))

/-- app/external_data.py `classify_aqi` (lines 99-182) with its
`try/except`: on an internal raise, the columns are restored only when
`Overall_AQI` is not among the (possibly partially updated) columns. -/
def classify_aqi (wg : String → Nat → ℚ) (t : Table) : Table :=
  match classifyBody wg t with
  | .ok t2 => t2
  | .error tp =>
    if "Overall_AQI" ∈ names tp then tp
    else
      setCol (setCol tp "Overall_AQI" (List.replicate tp.nrows Value.nan))
        "AQI_Category" (List.replicate tp.nrows (Value.vstr "Erro no cálculo"))

/-- The recognized pollutants present as columns of a table. -/
def hitKeys (t : Table) : List String :=
  aqiKeys.filter (fun p => decide (p ∈ names t))

/-- All cells of the table are numeric or NaN. -/
def noStrTable (t : Table) : Prop :=
  ∀ cv ∈ t.cols, ∀ v ∈ cv.2, isStrV v = false

instance (t : Table) : Decidable (noStrTable t) := by
  unfold noStrTable; infer_instance

/-- The overall index the spec ascribes to row `i`: the NaN-skipping
maximum of the sub-indices of the row's pollutant cells. -/
def expectedOverall (t : Table) (i : Nat) : Option ℚ :=
  nanmax ((hitKeys t).map (fun p => calculate_sub_index (toOpt (cell t p i)) p))

/-- A constant randomness oracle for concrete instances. -/
def wg0 : String → Nat → ℚ := fun _ _ => 0

/-- One-row table whose only column is a stray pre-existing sub-index
column (no pollutant column at all). -/
def tableC3 : Table := ⟨1, [("AQI_pm25", [Value.num 60])]⟩

/-- One-row table with pollutant cells whose sub-indices are
`[50, 120, NaN]`. -/
def tableC3b : Table :=
  ⟨1, [("pm25", [Value.num 12]), ("pm10", [Value.num (9476 / 49)]),
       ("o3", [Value.nan])]⟩

/-- Whether the first list is a leading block of the second. -/
def leadMatch : List Char → List Char → Bool
  | [], _ => true
  | _ :: _, [] => false
  | a :: as, b :: bs => a = b && leadMatch as bs

/-- Substring scan over the character list. -/
def containsSubAux (needle : List Char) : List Char → Bool
  | [] => needle.isEmpty
  | h :: t => leadMatch needle (h :: t) || containsSubAux needle t

/-- Python `needle in hay` on strings. -/
def substrB (needle hay : String) : Bool := containsSubAux needle.data hay.data

/-- ASCII lower-casing of one character. -/
def toLowerChar (c : Char) : Char :=
  if 65 ≤ c.toNat ∧ c.toNat ≤ 90 then Char.ofNat (c.toNat + 32) else c

/-- Python `str.lower()` (character-wise; exact on the ASCII letters the
profile keys and lookups use — the non-ASCII characters of the keys are
already lower-case). -/
def lowerStr (s : String) : String := ⟨s.data.map toLowerChar⟩

/-- One location profile: per-pollutant concentration ranges and the
four weather ranges. -/
structure Profile where
  pollutants : List (String × ℚ × ℚ)
  temperature : ℚ × ℚ
  humidity : ℚ × ℚ
  pressure : ℚ × ℚ
  wind_speed : ℚ × ℚ
deriving DecidableEq

/-- The `'são paulo'` profile. -/
def saoPauloProfile : Profile :=
  ⟨[("pm25", (15, 45)), ("pm10", (25, 65)), ("o3", (30, 90)), ("co", (300, 900)),
    ("so2", (5, 25)), ("no2", (20, 60))], (18, 32), (60, 90), (1010, 1020), (2, 8)⟩

/-- The `'cuiabá'` profile. -/
def cuiabaProfile : Profile :=
  ⟨[("pm25", (20, 60)), ("pm10", (30, 80)), ("o3", (40, 110)), ("co", (400, 1000)),
    ("so2", (8, 30)), ("no2", (25, 70))], (22, 38), (40, 80), (1008, 1015), (3, 12)⟩

/-- The `'belém'` profile. -/
def belemProfile : Profile :=
  ⟨[("pm25", (10, 35)), ("pm10", (20, 55)), ("o3", (25, 80)), ("co", (200, 700)),
    ("so2", (3, 18)), ("no2", (15, 45))], (24, 32), (75, 95), (1010, 1015), (2, 6)⟩

/-- The `'tangara'` profile. -/
def tangaraProfile : Profile :=
  ⟨[("pm25", (15, 50)), ("pm10", (25, 70)), ("o3", (35, 100)), ("co", (350, 950)),
    ("so2", (6, 28)), ("no2", (20, 65))], (20, 35), (45, 85), (1009, 1018), (3, 10)⟩

/-- The `'london'` profile. -/
def londonProfile : Profile :=
  ⟨[("pm25", (8, 35)), ("pm10", (15, 50)), ("o3", (25, 80)), ("co", (200, 700)),
    ("so2", (2, 15)), ("no2", (15, 45))], (5, 25), (70, 95), (1005, 1025), (5, 15)⟩

/-- The `'new york'` profile. -/
def newYorkProfile : Profile :=
  ⟨[("pm25", (10, 40)), ("pm10", (20, 55)), ("o3", (35, 95)), ("co", (250, 800)),
    ("so2", (3, 20)), ("no2", (25, 65))], (0, 30), (50, 85), (1010, 1030), (3, 10)⟩

/-- The `'default'` profile. -/
def defaultProfile : Profile :=
  ⟨[("pm25", (10, 35)), ("pm10", (15, 50)), ("o3", (25, 85)), ("co", (200, 700)),
    ("so2", (3, 18)), ("no2", (15, 50))], (15, 30), (50, 85), (1010, 1020), (2, 8)⟩

/-- The `location_profiles` dict in insertion order. -/
def location_profiles : List (String × Profile) :=
  [("são paulo", saoPauloProfile), ("cuiabá", cuiabaProfile), ("belém", belemProfile),
   ("tangara", tangaraProfile), ("london", londonProfile), ("new york", newYorkProfile),
   ("default", defaultProfile)]

/-- `for loc in location_profiles: if loc in location_lower: return ...`
with the `'default'` fallback. -/
def profileLookup : List (String × Profile) → String → Profile
  | [], _ => defaultProfile
  | (k, pr) :: rest, locLower =>
    if substrB k locLower = true then pr else profileLookup rest locLower

/-- `get_location_profile(location)`: first profile whose key occurs in
the lower-cased location string, else the default profile. -/
def get_location_profile (location : String) : Profile :=
  profileLookup location_profiles (lowerStr location)

/-- A calendar date (the date component of the generated timestamps). -/
structure Date where
  year : Nat
  month : Nat
  day : Nat
deriving DecidableEq

/-- Gregorian leap year. -/
def isLeap (y : Nat) : Bool := y % 4 = 0 && (y % 100 ≠ 0 || y % 400 = 0)

/-- Days in a calendar month. -/
def daysInMonth (y m : Nat) : Nat :=
  if m = 2 then (if isLeap y then 29 else 28)
  else if m = 4 ∨ m = 6 ∨ m = 9 ∨ m = 11 then 30
  else 31

/-- Lexicographic strict order on dates (`datetime` comparison). -/
def dateLt (a b : Date) : Bool :=
  a.year < b.year || (a.year = b.year &&
    (a.month < b.month || (a.month = b.month && a.day < b.day)))

/-- `current_date + timedelta(days=1)`. -/
def nextDay (d : Date) : Date :=
  if d.day < daysInMonth d.year d.month then ⟨d.year, d.month, d.day + 1⟩
  else if d.month < 12 then ⟨d.year, d.month + 1, 1⟩
  else ⟨d.year + 1, 1, 1⟩

/-- Split a character list at the dashes of a `YYYY-MM-DD` string. -/
def splitDashAux : List Char → List Char → List (List Char)
  | [], acc => [acc.reverse]
  | c :: rest, acc =>
    if c = '-' then acc.reverse :: splitDashAux rest []
    else splitDashAux rest (c :: acc)

/-- ASCII decimal digit test. -/
def isDigitCh (c : Char) : Bool := decide (48 ≤ c.toNat) && decide (c.toNat ≤ 57)

/-- The value of a decimal digit string. -/
def digitsVal (cs : List Char) : Nat := cs.foldl (fun n c => n * 10 + (c.toNat - 48)) 0

/-- `datetime.strptime(s, '%Y-%m-%d')` with the constructor's calendar
validation: exactly three dash-separated digit groups, a 4-digit year,
a 1-2 digit month and day in calendar range; any failure raises, which
the generator's `except` turns into an empty result (`none` here). -/
def parseDate (s : String) : Option Date :=
  match splitDashAux s.data [] with
  | [ys, ms, ds] =>
    if ys.length = 4 ∧ ys.all isDigitCh = true ∧
        1 ≤ ms.length ∧ ms.length ≤ 2 ∧ ms.all isDigitCh = true ∧
        1 ≤ ds.length ∧ ds.length ≤ 2 ∧ ds.all isDigitCh = true then
      if 1 ≤ digitsVal ys ∧ 1 ≤ digitsVal ms ∧ digitsVal ms ≤ 12 ∧ 1 ≤ digitsVal ds ∧
          digitsVal ds ≤ daysInMonth (digitsVal ys) (digitsVal ms) then
        some ⟨digitsVal ys, digitsVal ms, digitsVal ds⟩
      else none
    else none
  | _ => none

/-- The diurnal hour factor applied to pollutant base values.  The
source's overnight branch is the chained comparison `20 <= hour <= 6`,
i.e. `20 ≤ hour ∧ hour ≤ 6`. -/
def hour_factor (hour : Nat) : ℚ :=
  if (7 ≤ hour ∧ hour ≤ 9) ∨ (17 ≤ hour ∧ hour ≤ 19) then 1.8
  else if 10 ≤ hour ∧ hour ≤ 16 then 1.3
  else if 20 ≤ hour ∧ hour ≤ 6 then 0.6
  else 1

/-- The meteorological factor: times 0.7 for strong wind, further times
1.2 for high humidity. -/
def weather_factor (wind_speed humidity : ℚ) : ℚ :=
  let f1 : ℚ := 1
  let f2 := if wind_speed > 8 then f1 * 0.7 else f1
  if humidity > 80 then f2 * 1.2 else f2

/-- The seasonal factor: times 1.2 in the dry months 6-9. -/
def seasonal_factor (month : Nat) : ℚ :=
  if month ∈ ([6, 7, 8, 9] : List Nat) then 1.2 else 1

/-- Python `round(x, 2)` modeled as round-to-nearest on rationals
(Python rounds ties to even on floats; the difference only shows on
exact midpoints of the abstract draws). -/
def round2 (q : ℚ) : ℚ := (round (q * 100) : ℤ) / 100

/-- Python `round(x, 1)`, same modeling as `round2`. -/
def round1 (q : ℚ) : ℚ := (round (q * 10) : ℤ) / 10

/-- The abstract randomness source of the generator: one sample per
weather variable per (day, hour), and one noise sample per
(day, hour, parameter).  Each sample stands for one `random.uniform`
draw through `uniformDraw`. -/
structure Rng where
  tDraw : Date → Nat → ℚ
  hDraw : Date → Nat → ℚ
  pDraw : Date → Nat → ℚ
  wDraw : Date → Nat → ℚ
  noise : Date → Nat → String → ℚ

/-- The `parameters` list of the generator. -/
def parameters : List String := ["pm25", "pm10", "o3", "co", "so2", "no2"]

/-- One emitted reading: the date and hour of the timestamp plus the
scalar fields of the Python record dict. -/
structure GenRecord where
  date : Date
  hour : Nat
  location : String
  parameter : String
  value : ℚ
  unit : String
  city : String
  country : String
  latitude : ℚ
  longitude : ℚ
  temperature : ℚ
  humidity : ℚ
  pressure : ℚ
  wind_speed : ℚ

/-- The hour-dependent temperature draw: hotter at 13-15, cooler at 3-5. -/
def tempDraw (rng : Rng) (pr : Profile) (d : Date) (hour : Nat) : ℚ :=
  if 13 ≤ hour ∧ hour ≤ 15 then
    uniformDraw (pr.temperature.2 - 5) pr.temperature.2 (rng.tDraw d hour)
  else if 3 ≤ hour ∧ hour ≤ 5 then
    uniformDraw pr.temperature.1 (pr.temperature.1 + 5) (rng.tDraw d hour)
  else uniformDraw pr.temperature.1 pr.temperature.2 (rng.tDraw d hour)

/-- The hour-dependent humidity draw: drier at 13-15, wetter at 3-5. -/
def humDraw (rng : Rng) (pr : Profile) (d : Date) (hour : Nat) : ℚ :=
  if 13 ≤ hour ∧ hour ≤ 15 then
    uniformDraw pr.humidity.1 (pr.humidity.1 + 20) (rng.hDraw d hour)
  else if 3 ≤ hour ∧ hour ≤ 5 then
    uniformDraw (pr.humidity.2 - 20) pr.humidity.2 (rng.hDraw d hour)
  else uniformDraw pr.humidity.1 pr.humidity.2 (rng.hDraw d hour)

/-- One appended record: base range from the profile (default `(5, 50)`),
the four multiplicative factors, rounding, and the derived scalar
fields of the record dict. -/
def mkRecord (rng : Rng) (location : String) (pr : Profile) (d : Date) (hour : Nat)
    (temperature humidity pressure wind_speed : ℚ) (param : String) : GenRecord :=
  let base := (lookupA pr.pollutants param).getD (5, 50)
  let rf := uniformDraw 0.7 1.3 (rng.noise d hour param)
  { date := d
    hour := hour
    location := location
    parameter := param
    value := round2 (base.1 + (base.2 - base.1) * rf * hour_factor hour *
      weather_factor wind_speed humidity * seasonal_factor d.month)
    unit := if param ∈ (["pm25", "pm10"] : List String) then "μg/m³" else "ppb"
    city := if substrB "," location = true then (location.splitOn ",").headD location
      else location
    country := if substrB "brasil" (lowerStr location) = true ∨
        substrB "são" (lowerStr location) = true then "BR" else "US"
    latitude := if substrB "são paulo" (lowerStr location) = true then -23.550
      else if substrB "cuiabá" (lowerStr location) = true then -15.601 else 51.507
    longitude := if substrB "são paulo" (lowerStr location) = true then -46.633
      else if substrB "cuiabá" (lowerStr location) = true then -56.098 else -0.128
    temperature := round1 temperature
    humidity := round1 humidity
    pressure := round1 pressure
    wind_speed := round1 wind_speed }

/-- The inner parameter loop: break as soon as `limit` records exist,
else append one record. -/
def paramStep (rng : Rng) (location : String) (pr : Profile) (d : Date) (hour : Nat)
    (temperature humidity pressure wind_speed : ℚ) (limit : Nat)
    (acc : List GenRecord) (param : String) : List GenRecord :=
  if limit ≤ acc.length then acc
  else acc ++ [mkRecord rng location pr d hour temperature humidity pressure wind_speed param]

/-- The hour loop body: break on the limit, else draw the hour's weather
and run the parameter loop. -/
def hourStep (rng : Rng) (location : String) (pr : Profile) (limit : Nat) (d : Date)
    (acc : List GenRecord) (hour : Nat) : List GenRecord :=
  if limit ≤ acc.length then acc
  else
    parameters.foldl
      (paramStep rng location pr d hour (tempDraw rng pr d hour) (humDraw rng pr d hour)
        (uniformDraw pr.pressure.1 pr.pressure.2 (rng.pDraw d hour))
        (uniformDraw pr.wind_speed.1 pr.wind_speed.2 (rng.wDraw d hour)) limit)
      acc

/-- The day loop: `while current_date <= end and len(demo_data) < limit`,
formulated with a fuel bound on the number of days (large enough for the
concrete claims below; the loop's stopping condition governs the
semantics). -/
def dayLoop (rng : Rng) (location : String) (pr : Profile) (limit : Nat) (endD : Date) :
    Nat → Date → List GenRecord → List GenRecord
  | 0, _, acc => acc
  | fuel + 1, cur, acc =>
    if dateLt endD cur = true ∨ limit ≤ acc.length then acc
    else dayLoop rng location pr limit endD fuel (nextDay cur)
      ((List.range 24).foldl (hourStep rng location pr limit cur) acc)

/-- app/external_data.py `generate_realistic_air_quality_data`: empty
required fields, an unparseable date, or `date_from > date_to` give an
empty result; otherwise the day/hour/parameter loop runs until the limit
or the end date.  (The source's unused `records_per_day` variable is
omitted.) -/
def generate_realistic_air_quality_data (rng : Rng)
    (location date_from date_to : String) (limit : Nat) : List GenRecord :=
  if location = "" ∨ date_from = "" ∨ date_to = "" then []
  else
    match parseDate date_from, parseDate date_to with
    | some start, some endD =>
      if dateLt endD start = true then []
      else
        dayLoop rng location (get_location_profile location) limit endD
          ((endD.year + 1 - start.year) * 366) start []
    | _, _ => []

/-- A constant randomness source for concrete instances. -/
def rng0 : Rng := ⟨fun _ _ => 0, fun _ _ => 0, fun _ _ => 0, fun _ _ => 0, fun _ _ _ => 0⟩

/- Well-formedness of the static tables. -/

/-- Shape facts of one segment: index range inside `[0, 500]` and a
non-degenerate concentration range. -/
def segWF (s : Seg) : Prop :=
  0 ≤ s.i_low ∧ s.i_low ≤ s.i_high ∧ s.i_high ≤ 500 ∧ s.bp_low < s.bp_high

/-- Consecutive segments are strictly separated. -/
def adjacentOrdered : List Seg → Prop
  | [] => True
  | [_] => True
  | a :: b :: rest => a.bp_high < b.bp_low ∧ adjacentOrdered (b :: rest)

/-- Shape facts of one whole table. -/
def tableWF (segs : List Seg) : Prop :=
  segs ≠ [] ∧ (∀ s ∈ segs, segWF s) ∧ adjacentOrdered segs ∧
    (segs.head?.map Seg.bp_low) = some 0

theorem pm25segs_wf : tableWF pm25segs := by
  refine ⟨by simp [pm25segs], ?_, ?_, by simp [pm25segs]⟩
  · intro s hs
    simp only [pm25segs] at hs
    fin_cases hs <;> norm_num [segWF]
  · simp only [pm25segs, adjacentOrdered]
    norm_num

theorem pm10segs_wf : tableWF pm10segs := by
  refine ⟨by simp [pm10segs], ?_, ?_, by simp [pm10segs]⟩
  · intro s hs
    simp only [pm10segs] at hs
    fin_cases hs <;> norm_num [segWF]
  · simp only [pm10segs, adjacentOrdered]
    norm_num

theorem o3segs_wf : tableWF o3segs := by
  refine ⟨by simp [o3segs], ?_, ?_, by simp [o3segs]⟩
  · intro s hs
    simp only [o3segs] at hs
    fin_cases hs <;> norm_num [segWF]
  · simp only [o3segs, adjacentOrdered]
    norm_num

theorem cosegs_wf : tableWF cosegs := by
  refine ⟨by simp [cosegs], ?_, ?_, by simp [cosegs]⟩
  · intro s hs
    simp only [cosegs] at hs
    fin_cases hs <;> norm_num [segWF]
  · simp only [cosegs, adjacentOrdered]
    norm_num

theorem so2segs_wf : tableWF so2segs := by
  refine ⟨by simp [so2segs], ?_, ?_, by simp [so2segs]⟩
  · intro s hs
    simp only [so2segs] at hs
    fin_cases hs <;> norm_num [segWF]
  · simp only [so2segs, adjacentOrdered]
    norm_num

theorem no2segs_wf : tableWF no2segs := by
  refine ⟨by simp [no2segs], ?_, ?_, by simp [no2segs]⟩
  · intro s hs
    simp only [no2segs] at hs
    fin_cases hs <;> norm_num [segWF]
  · simp only [no2segs, adjacentOrdered]
    norm_num

/-- Every stored table is well-formed. -/
theorem all_tables_wf : ∀ segs ∈ breakpointTable.map Prod.snd, tableWF segs := by
  intro segs hsegs
  simp only [breakpointTable, List.map_cons, List.map_nil, List.mem_cons,
    List.not_mem_nil, or_false] at hsegs
  rcases hsegs with h | h | h | h | h | h <;> subst h
  · exact pm25segs_wf
  · exact pm10segs_wf
  · exact o3segs_wf
  · exact cosegs_wf
  · exact so2segs_wf
  · exact no2segs_wf

/-- Every stored segment's index range is one of the six fixed pairs. -/
theorem seg_idx_mem : ∀ segs ∈ breakpointTable.map Prod.snd, ∀ s ∈ segs,
    (s.i_low, s.i_high) ∈ idxPairs := by
  intro segs hsegs s hs
  simp only [breakpointTable, List.map_cons, List.map_nil, List.mem_cons,
    List.not_mem_nil, or_false] at hsegs
  rcases hsegs with h | h | h | h | h | h <;> subst h <;>
    simp only [pm25segs, pm10segs, o3segs, cosegs, so2segs, no2segs] at hs <;>
    fin_cases hs <;> simp [idxPairs]

/-- Each of the six index-range pairs sits inside a category band. -/
theorem idx_band : ∀ r ∈ idxPairs,
    ∃ b ∈ categoriesList, b.c_lo ≤ r.1 ∧ r.2 ≤ b.c_hi := by
  intro r hr
  simp only [idxPairs] at hr
  fin_cases hr
  · exact ⟨⟨0, 50, "Boa"⟩, by simp [categoriesList], by norm_num, by norm_num⟩
  · exact ⟨⟨51, 100, "Moderada"⟩, by simp [categoriesList], by norm_num, by norm_num⟩
  · exact ⟨⟨101, 150, "Ruim para Grupos Sensíveis"⟩, by simp [categoriesList],
      by norm_num, by norm_num⟩
  · exact ⟨⟨151, 200, "Ruim"⟩, by simp [categoriesList], by norm_num, by norm_num⟩
  · exact ⟨⟨201, 300, "Muito Ruim"⟩, by simp [categoriesList], by norm_num, by norm_num⟩
  · exact ⟨⟨301, 501, "Perigosa"⟩, by simp [categoriesList], by norm_num, by norm_num⟩

/-- Every segment's index range sits inside one of the category bands. -/
theorem seg_band : ∀ segs ∈ breakpointTable.map Prod.snd, ∀ s ∈ segs,
    ∃ b ∈ categoriesList, b.c_lo ≤ s.i_low ∧ s.i_high ≤ b.c_hi := by
  intro segs hsegs s hs
  exact idx_band (s.i_low, s.i_high) (seg_idx_mem segs hsegs s hs)

/- Helper lemmas about the segment scan. -/

/-- Inversion for `lookupA`: a successful lookup returns a stored value. -/
theorem lookupA_mem {α : Type} : ∀ (l : List (String × α)) (k : String) (v : α),
    lookupA l k = some v → v ∈ l.map Prod.snd := by
  intro l
  induction l with
  | nil => intro k v h; simp [lookupA] at h
  | cons hd tl ih =>
    intro k v h
    simp only [lookupA] at h
    by_cases hk : k = hd.1
    · rw [if_pos hk] at h
      simp only [List.map_cons, List.mem_cons]
      exact Or.inl (Option.some.inj h).symm
    · rw [if_neg hk] at h
      exact List.mem_cons_of_mem _ (ih k v h)

/-- Inversion for `findSeg`: a non-NaN result is the interpolation of a
containing segment of the list. -/
theorem findSeg_some : ∀ (segs : List Seg) (c v : ℚ),
    findSeg segs c = some v → ∃ s ∈ segs, segContains s c ∧ v = interp s c := by
  intro segs
  induction segs with
  | nil => intro c v h; simp [findSeg] at h
  | cons s rest ih =>
    intro c v h
    simp only [findSeg] at h
    by_cases hc : segContains s c
    · rw [if_pos hc] at h
      exact ⟨s, List.mem_cons_self s rest, hc, (Option.some.inj h).symm⟩
    · rw [if_neg hc] at h
      obtain ⟨t, ht, hct, hv⟩ := ih c v h
      exact ⟨t, List.mem_cons_of_mem _ ht, hct, hv⟩

/-- `findSeg` misses when no segment contains the concentration. -/
theorem findSeg_none : ∀ (segs : List Seg) (c : ℚ),
    (∀ s ∈ segs, ¬ segContains s c) → findSeg segs c = none := by
  intro segs
  induction segs with
  | nil => intro c _; rfl
  | cons s rest ih =>
    intro c h
    simp only [findSeg]
    rw [if_neg (h s (List.mem_cons_self s rest))]
    exact ih c fun t ht => h t (List.mem_cons_of_mem _ ht)

/-- `findSeg` returns the first containing segment's interpolation. -/
theorem findSeg_first : ∀ (pre : List Seg) (s : Seg) (post : List Seg) (c : ℚ),
    (∀ t ∈ pre, ¬ segContains t c) → segContains s c →
    findSeg (pre ++ s :: post) c = some (interp s c) := by
  intro pre
  induction pre with
  | nil =>
    intro s post c _ hs
    simp only [List.nil_append, findSeg]
    rw [if_pos hs]
  | cons t rest ih =>
    intro s post c hpre hs
    simp only [List.cons_append, findSeg]
    rw [if_neg (hpre t (List.mem_cons_self t rest))]
    exact ih s post c (fun u hu => hpre u (List.mem_cons_of_mem _ hu)) hs

/-- If a unique segment contains the concentration, the scan returns its
interpolation. -/
theorem findSeg_of_unique : ∀ (segs : List Seg) (c : ℚ) (s : Seg),
    s ∈ segs → segContains s c → (∀ t ∈ segs, segContains t c → t = s) →
    findSeg segs c = some (interp s c) := by
  intro segs
  induction segs with
  | nil => intro c s hs; simp at hs
  | cons a rest ih =>
    intro c s hs hsc huniq
    by_cases hac : segContains a c
    · have ha : a = s := huniq a (List.mem_cons_self a rest) hac
      subst ha
      simp only [findSeg]
      rw [if_pos hac]
    · have hsrest : s ∈ rest := by
        rcases List.mem_cons.mp hs with h | h
        · exact absurd (h ▸ hsc) hac
        · exact h
      simp only [findSeg]
      rw [if_neg hac]
      exact ih c s hsrest hsc fun t ht => huniq t (List.mem_cons_of_mem _ ht)

/-- In a strictly separated table the head's `bp_high` is below every
later segment's `bp_low`. -/
theorem adjacent_head_below : ∀ (s : Seg) (rest : List Seg),
    (∀ u ∈ s :: rest, u.bp_low ≤ u.bp_high) → adjacentOrdered (s :: rest) →
    ∀ t ∈ rest, s.bp_high < t.bp_low := by
  intro s rest
  induction rest generalizing s with
  | nil => intro _ _ t ht; simp at ht
  | cons b rest ih =>
    intro hwf hadj t ht
    simp only [adjacentOrdered] at hadj
    rcases List.mem_cons.mp ht with hb | hrest
    · subst hb; exact hadj.1
    · have hb_wf : ∀ u ∈ b :: rest, u.bp_low ≤ u.bp_high := by
        intro u hu; exact hwf u (List.mem_cons_of_mem _ hu)
      have h2 := ih b hb_wf hadj.2 t hrest
      have hb2 : b.bp_low ≤ b.bp_high := hb_wf b (List.mem_cons_self _ _)
      linarith [hadj.1]

/-- In a well-formed, strictly separated table at most one segment
(as a value) contains any given concentration. -/
theorem ordered_unique : ∀ (segs : List Seg),
    (∀ u ∈ segs, u.bp_low ≤ u.bp_high) → adjacentOrdered segs →
    ∀ (c : ℚ) (s t : Seg), s ∈ segs → t ∈ segs →
      segContains s c → segContains t c → s = t := by
  intro segs
  induction segs with
  | nil => intro _ _ c s t hs; simp at hs
  | cons a rest ih =>
    intro hwf hadj c s t hs ht hsc htc
    have hrest_wf : ∀ u ∈ rest, u.bp_low ≤ u.bp_high := by
      intro u hu; exact hwf u (List.mem_cons_of_mem _ hu)
    have hrest_adj : adjacentOrdered rest := by
      cases rest with
      | nil => trivial
      | cons b rest2 =>
        simp only [adjacentOrdered] at hadj
        exact hadj.2
    have hbelow := adjacent_head_below a rest hwf hadj
    rcases List.mem_cons.mp hs with hs1 | hs1 <;> rcases List.mem_cons.mp ht with ht1 | ht1
    · rw [hs1, ht1]
    · subst hs1
      exact absurd htc.1 (by push_neg; linarith [hbelow t ht1, hsc.2])
    · subst ht1
      exact absurd hsc.1 (by push_neg; linarith [hbelow s hs1, htc.2])
    · exact ih hrest_wf hrest_adj c s t hs1 ht1 hsc htc

/-- In a well-formed, strictly separated table at most one segment
contains any given concentration (counting version). -/
theorem ordered_at_most_one : ∀ (segs : List Seg),
    (∀ u ∈ segs, u.bp_low ≤ u.bp_high) → adjacentOrdered segs →
    ∀ c : ℚ, (segs.countP (fun s => decide (segContains s c))) ≤ 1 := by
  intro segs
  induction segs with
  | nil => intro _ _ c; simp
  | cons s rest ih =>
    intro hwf hadj c
    have hrest_wf : ∀ u ∈ rest, u.bp_low ≤ u.bp_high := by
      intro u hu; exact hwf u (List.mem_cons_of_mem _ hu)
    have hrest_adj : adjacentOrdered rest := by
      cases rest with
      | nil => trivial
      | cons b rest2 =>
        simp only [adjacentOrdered] at hadj
        exact hadj.2
    by_cases hc : segContains s c
    · have hzero : rest.countP (fun t => decide (segContains t c)) = 0 := by
        rw [List.countP_eq_zero]
        intro t ht
        have hbelow := adjacent_head_below s rest hwf hadj t ht
        simp only [decide_eq_true_eq]
        intro hcont
        exact absurd hcont.1 (by push_neg; linarith [hc.2])
      rw [List.countP_cons, hzero]
      simp [hc]
    · rw [List.countP_cons]
      have hfalse : (decide (segContains s c)) = false := by simp [hc]
      rw [hfalse]
      simpa using ih hrest_wf hrest_adj c

/-- Interpolating at a segment's `bp_high` gives exactly its `i_high`. -/
theorem interp_at_high (s : Seg) (hlh : s.bp_low < s.bp_high) :
    interp s s.bp_high = s.i_high := by
  have hne : s.bp_high - s.bp_low ≠ 0 := sub_ne_zero.mpr (ne_of_gt hlh)
  unfold interp
  field_simp

/-- In a well-formed table the scan at a stored segment's `bp_high`
returns exactly that segment's `i_high`. -/
theorem findSeg_at_high (segs : List Seg) (hwf : ∀ u ∈ segs, segWF u)
    (hadj : adjacentOrdered segs) (s : Seg) (hs : s ∈ segs) :
    findSeg segs s.bp_high = some s.i_high := by
  have hwf' : ∀ u ∈ segs, u.bp_low ≤ u.bp_high := by
    intro u hu; exact le_of_lt (hwf u hu).2.2.2
  have hcont : segContains s s.bp_high := ⟨hwf' s hs, le_refl _⟩
  have huniq : ∀ t ∈ segs, segContains t s.bp_high → t = s := by
    intro t ht htc
    exact ordered_unique segs hwf' hadj s.bp_high t s ht hs htc hcont
  rw [findSeg_of_unique segs s.bp_high s hs hcont huniq,
    interp_at_high s (hwf s hs).2.2.2]

/-- Interpolating inside a segment stays between `i_low` and `i_high`. -/
theorem interp_bounds (s : Seg) (c : ℚ) (hlh : s.bp_low < s.bp_high)
    (hii : s.i_low ≤ s.i_high) (h1 : s.bp_low ≤ c) (h2 : c ≤ s.bp_high) :
    s.i_low ≤ interp s c ∧ interp s c ≤ s.i_high := by
  have hpos : (0 : ℚ) < s.bp_high - s.bp_low := by linarith
  have hk : (0 : ℚ) ≤ (s.i_high - s.i_low) / (s.bp_high - s.bp_low) :=
    div_nonneg (by linarith) (le_of_lt hpos)
  constructor
  · have hnn : (0 : ℚ) ≤ (s.i_high - s.i_low) / (s.bp_high - s.bp_low) * (c - s.bp_low) :=
      mul_nonneg hk (by linarith)
    unfold interp; linarith
  · have hle : (s.i_high - s.i_low) / (s.bp_high - s.bp_low) * (c - s.bp_low) ≤
        (s.i_high - s.i_low) / (s.bp_high - s.bp_low) * (s.bp_high - s.bp_low) :=
      mul_le_mul_of_nonneg_left (by linarith) hk
    have heq : (s.i_high - s.i_low) / (s.bp_high - s.bp_low) * (s.bp_high - s.bp_low) =
        s.i_high - s.i_low :=
      div_mul_cancel₀ _ (ne_of_gt hpos)
    unfold interp; linarith

/-- A non-NaN sub-index comes from a containing segment of the
pollutant's table. -/
theorem sub_index_from_segment (p : String) (c v : ℚ)
    (h : calculate_sub_index (some c) p = some v) :
    ∃ segs, breakpoints p = some segs ∧ segs ∈ breakpointTable.map Prod.snd ∧
      ∃ s ∈ segs, segContains s c ∧ v = interp s c := by
  cases hbp : breakpoints p with
  | none =>
    rw [calculate_sub_index_some, hbp] at h
    exact absurd h (by simp)
  | some segs =>
    rw [calculate_sub_index_eq c p segs hbp] at h
    exact ⟨segs, rfl, lookupA_mem breakpointTable p segs hbp, findSeg_some segs c v h⟩

/-- A non-NaN sub-index is between 0 and 500. -/
theorem sub_index_bounds (p : String) (c v : ℚ)
    (h : calculate_sub_index (some c) p = some v) : 0 ≤ v ∧ v ≤ 500 := by
  obtain ⟨segs, _, hmem, s, hs, hcont, hv⟩ := sub_index_from_segment p c v h
  obtain ⟨h0, hii, h500, hlh⟩ := (all_tables_wf segs hmem).2.1 s hs
  obtain ⟨hl, hr⟩ := interp_bounds s c hlh hii hcont.1 hcont.2
  subst hv
  exact ⟨le_trans h0 hl, le_trans hr h500⟩

/-- A `nanmax` result is one of the entries of the list. -/
theorem nanmaxAux_mem : ∀ (xs : List (Option ℚ)) (acc : Option ℚ) (v : ℚ),
    nanmaxAux acc xs = some v → some v ∈ xs ∨ acc = some v := by
  intro xs
  induction xs with
  | nil => intro acc v h; exact Or.inr h
  | cons x xs ih =>
    intro acc v h
    simp only [nanmaxAux] at h
    rcases ih _ _ h with hmem | hacc
    · exact Or.inl (List.mem_cons_of_mem _ hmem)
    · cases acc with
      | none =>
        simp only at hacc
        exact Or.inl (by rw [hacc]; exact List.mem_cons_self _ _)
      | some a =>
        cases x with
        | none => exact Or.inr hacc
        | some b =>
          simp only at hacc
          rcases max_choice a b with hab | hab
          · refine Or.inr ?_
            rw [← hacc, hab]
          · refine Or.inl ?_
            have hbv : some b = some v := by rw [← hacc, hab]
            rw [← hbv]
            exact List.mem_cons_self _ _

theorem nanmax_mem (xs : List (Option ℚ)) (v : ℚ) (h : nanmax xs = some v) :
    some v ∈ xs := by
  rcases nanmaxAux_mem xs none v h with hmem | hacc
  · exact hmem
  · exact absurd hacc (by simp)

/-- `breakpoints` at each recognized key. -/
theorem breakpoints_pm25 : breakpoints "pm25" = some pm25segs := by
  simp [breakpoints, lookupA, breakpointTable]

theorem breakpoints_pm10 : breakpoints "pm10" = some pm10segs := by
  simp [breakpoints, lookupA, breakpointTable]

theorem breakpoints_o3 : breakpoints "o3" = some o3segs := by
  simp [breakpoints, lookupA, breakpointTable]

theorem breakpoints_co : breakpoints "co" = some cosegs := by
  simp [breakpoints, lookupA, breakpointTable]

theorem breakpoints_so2 : breakpoints "so2" = some so2segs := by
  simp [breakpoints, lookupA, breakpointTable]

theorem breakpoints_no2 : breakpoints "no2" = some no2segs := by
  simp [breakpoints, lookupA, breakpointTable]

/- ----------------------------------------------------------------- -/
/- Claim theorems for the numeric core.                              -/
/- ----------------------------------------------------------------- -/

/-- C1: the per-pollutant sub-index follows the three-case definition:
NaN for a missing concentration, NaN for an unrecognized pollutant
(in particular `"unknown_pollutant"`), the interpolation of the first
containing breakpoint segment, NaN when no segment contains the
concentration; and at every segment's `bp_high` the sub-index is exactly
that segment's `i_high`. -/
theorem C1_sub_index_cases :
    (∀ p, calculate_sub_index none p = none) ∧
    (∀ c p, breakpoints p = none → calculate_sub_index c p = none) ∧
    (∀ c, calculate_sub_index (some c) "unknown_pollutant" = none) ∧
    (∀ c p segs, breakpoints p = some segs →
      ((∀ s ∈ segs, ¬ segContains s c) → calculate_sub_index (some c) p = none) ∧
      (∀ pre s post, segs = pre ++ s :: post → (∀ t ∈ pre, ¬ segContains t c) →
        segContains s c → calculate_sub_index (some c) p = some (interp s c))) ∧
    (∀ p ∈ aqiKeys, ∀ s ∈ segsOf p, calculate_sub_index (some s.bp_high) p = some s.i_high) := by
  refine ⟨fun p => rfl, ?_, ?_, ?_, ?_⟩
  · intro c p h
    cases c with
    | none => rfl
    | some c =>
      rw [calculate_sub_index_some, h]
  · intro c
    rw [calculate_sub_index_some]
    have h : breakpoints "unknown_pollutant" = none := by
      simp [breakpoints, lookupA, breakpointTable]
    rw [h]
  · intro c p segs hbp
    constructor
    · intro hnone
      rw [calculate_sub_index_eq c p segs hbp]
      exact findSeg_none segs c hnone
    · intro pre s post hsplit hpre hs
      rw [calculate_sub_index_eq c p segs hbp, hsplit]
      exact findSeg_first pre s post c hpre hs
  · intro p hp s hs
    have hsegs : breakpoints p = some (segsOf p) := by
      simp only [aqiKeys, breakpointTable, List.map_cons, List.map_nil,
        List.mem_cons, List.not_mem_nil, or_false] at hp
      rcases hp with h | h | h | h | h | h <;> subst h <;>
        simp [segsOf, breakpoints_pm25, breakpoints_pm10, breakpoints_o3,
          breakpoints_co, breakpoints_so2, breakpoints_no2]
    have hmem : segsOf p ∈ breakpointTable.map Prod.snd :=
      lookupA_mem breakpointTable p (segsOf p) hsegs
    have hwf := (all_tables_wf (segsOf p) hmem).2.1
    have hadj := (all_tables_wf (segsOf p) hmem).2.2.1
    rw [calculate_sub_index_eq s.bp_high p (segsOf p) hsegs]
    exact findSeg_at_high (segsOf p) hwf hadj s hs

/-- C2: `get_category` agrees everywhere with the spec's band map
(closed bands `[0,50]..[301,500]`, NaN to `'Indisponível'`, everything
else clamped to `'Perigosa'`), and in particular sends 50 to `'Boa'`,
51 to `'Moderada'`, 500 and 600 to `'Perigosa'` and NaN to
`'Indisponível'`. -/
theorem C2_get_category_bands :
    (∀ x, get_category x = specCategory x) ∧
    get_category (some 50) = "Boa" ∧
    get_category (some 51) = "Moderada" ∧
    get_category (some 500) = "Perigosa" ∧
    get_category (some 600) = "Perigosa" ∧
    get_category none = "Indisponível" := by
  refine ⟨?_, by norm_num [get_category, lookupCat, categoriesList],
    by norm_num [get_category, lookupCat, categoriesList],
    by norm_num [get_category, lookupCat, categoriesList],
    by norm_num [get_category, lookupCat, categoriesList], rfl⟩
  intro x
  cases x with
  | none => rfl
  | some v =>
    show lookupCat categoriesList v = specCategory (some v)
    simp only [categoriesList, lookupCat, specCategory]
    split_ifs <;> rfl

/-- C4 counterexample: the pm10 table leaves the concentration 54.5
inside `[0, 604]` (the final segment's `bp_high`) but in no segment,
so the tables do not cover the concentration domain without gaps as the
claim states. -/
theorem C4_counterexample :
    (0 : ℚ) ≤ 109 / 2 ∧ (109 : ℚ) / 2 ≤ 604 ∧
    "pm10" ∈ aqiKeys ∧
    ((segsOf "pm10").getLast?.map Seg.bp_high) = some 604 ∧
    calculate_sub_index (some (109 / 2)) "pm10" = none := by
  refine ⟨by norm_num, by norm_num, ?_, ?_, ?_⟩
  · simp [aqiKeys, breakpointTable]
  · simp [segsOf, breakpoints_pm10, pm10segs]
  · rw [calculate_sub_index_eq _ _ pm10segs breakpoints_pm10]
    apply findSeg_none
    intro s hs
    simp only [pm10segs] at hs
    fin_cases hs <;> norm_num [segContains]

/-- C4 (amended): every pollutant's table is a nonempty ordered list of
segments with `bp_low ≤ bp_high`, starting at 0, with consecutive
segments strictly separated (`bp_high` of one below `bp_low` of the
next); hence segments do not overlap and any concentration lies in at
most one segment — but the separation leaves gaps, so the segments do
not cover every concentration up to the final `bp_high`
(see `C4_counterexample`). -/
theorem C4_breakpoints_ordered_amended :
    (∀ p ∈ aqiKeys, segsOf p ≠ [] ∧
      (∀ s ∈ segsOf p, s.bp_low ≤ s.bp_high) ∧
      adjacentOrdered (segsOf p) ∧
      ((segsOf p).head?.map Seg.bp_low) = some 0) ∧
    (∀ p : String, ∀ c : ℚ,
      ((segsOf p).countP (fun s => decide (segContains s c))) ≤ 1) := by
  constructor
  · intro p hp
    simp only [aqiKeys, breakpointTable, List.map_cons, List.map_nil,
      List.mem_cons, List.not_mem_nil, or_false] at hp
    have key : ∀ segs : List Seg, segsOf p = segs → tableWF segs →
        segsOf p ≠ [] ∧ (∀ s ∈ segsOf p, s.bp_low ≤ s.bp_high) ∧
          adjacentOrdered (segsOf p) ∧ ((segsOf p).head?.map Seg.bp_low) = some 0 := by
      intro segs he hWF
      rw [he]
      exact ⟨hWF.1, fun s hs => le_of_lt ((hWF.2.1 s hs).2.2.2), hWF.2.2.1, hWF.2.2.2⟩
    rcases hp with h | h | h | h | h | h <;> subst h
    · exact key pm25segs (by simp [segsOf, breakpoints_pm25]) pm25segs_wf
    · exact key pm10segs (by simp [segsOf, breakpoints_pm10]) pm10segs_wf
    · exact key o3segs (by simp [segsOf, breakpoints_o3]) o3segs_wf
    · exact key cosegs (by simp [segsOf, breakpoints_co]) cosegs_wf
    · exact key so2segs (by simp [segsOf, breakpoints_so2]) so2segs_wf
    · exact key no2segs (by simp [segsOf, breakpoints_no2]) no2segs_wf
  · intro p c
    cases hbp : breakpoints p with
    | none => simp [segsOf, hbp]
    | some segs =>
      have hmem := lookupA_mem breakpointTable p segs hbp
      have hWF := all_tables_wf segs hmem
      have he : segsOf p = segs := by simp [segsOf, hbp]
      rw [he]
      exact ordered_at_most_one segs
        (fun u hu => le_of_lt ((hWF.2.1 u hu).2.2.2)) hWF.2.2.1 c

/-- C10: every non-NaN sub-index lies in `[0, 500]`; a non-NaN `nanmax`
of a list of sub-indices is one of them, so a non-NaN overall index also
lies in `[0, 500]`; and every non-NaN sub-index lies inside one of the
category bands, so the fall-through clamp branch of `get_category` is
never reached for an overall index computed by the classifier itself. -/
theorem C10_bounds :
    (∀ p c v, calculate_sub_index (some c) p = some v → 0 ≤ v ∧ v ≤ 500) ∧
    (∀ xs v, nanmax xs = some v → some v ∈ xs) ∧
    (∀ (xs : List (Option ℚ)) v,
      (∀ x ∈ xs, ∀ w, x = some w → 0 ≤ w ∧ w ≤ 500) →
      nanmax xs = some v → 0 ≤ v ∧ v ≤ 500) ∧
    (∀ p c v, calculate_sub_index (some c) p = some v →
      ∃ b ∈ categoriesList, b.c_lo ≤ v ∧ v ≤ b.c_hi) := by
  refine ⟨sub_index_bounds, nanmax_mem, ?_, ?_⟩
  · intro xs v hall h
    exact hall (some v) (nanmax_mem xs v h) v rfl
  · intro p c v h
    obtain ⟨segs, _, hmem, s, hs, hcont, hv⟩ := sub_index_from_segment p c v h
    obtain ⟨h0, hii, h500, hlh⟩ := (all_tables_wf segs hmem).2.1 s hs
    obtain ⟨b, hb, hb1, hb2⟩ := seg_band segs hmem s hs
    obtain ⟨hl, hr⟩ := interp_bounds s c hlh hii hcont.1 hcont.2
    subst hv
    exact ⟨b, hb, le_trans hb1 hl, le_trans hr hb2⟩

/-- Witness for C1 at concrete inputs: pm25 at the boundary 12.0 of its
first segment gives exactly its `i_high` 50, the in-gap pm25
concentration 12.05 gives NaN, and an unknown pollutant gives NaN. -/
theorem C1_witness :
    calculate_sub_index (some 12.0) "pm25" = some 50 ∧
    calculate_sub_index (some (241 / 20)) "pm25" = none ∧
    calculate_sub_index (some 3) "xyz" = none := by
  refine ⟨?_, ?_, ?_⟩
  · have h1 := C1_sub_index_cases.2.2.2.2 "pm25" (by simp [aqiKeys, breakpointTable])
      ⟨0, 12.0, 0, 50⟩ (by simp [segsOf, breakpoints_pm25, pm25segs])
    simpa using h1
  · refine (C1_sub_index_cases.2.2.2.1 (241 / 20) "pm25" pm25segs breakpoints_pm25).1 ?_
    intro s hs
    simp only [pm25segs] at hs
    fin_cases hs <;> norm_num [segContains]
  · exact C1_sub_index_cases.2.1 (some 3) "xyz"
      (by simp [breakpoints, lookupA, breakpointTable])

/-- Witness for C4 (amended) at pm10 and a concrete concentration. -/
theorem C4_witness :
    (segsOf "pm10" ≠ [] ∧
      (∀ s ∈ segsOf "pm10", s.bp_low ≤ s.bp_high) ∧
      adjacentOrdered (segsOf "pm10") ∧
      ((segsOf "pm10").head?.map Seg.bp_low) = some 0) ∧
    ((segsOf "pm10").countP (fun s => decide (segContains s (60 : ℚ)))) ≤ 1 := by
  exact ⟨C4_breakpoints_ordered_amended.1 "pm10" (by simp [aqiKeys, breakpointTable]),
    C4_breakpoints_ordered_amended.2 "pm10" 60⟩

/-- Witness for C10 at pm25 with concentration 10 (sub-index 125/3). -/
theorem C10_witness :
    ((0 : ℚ) ≤ 125 / 3 ∧ (125 : ℚ) / 3 ≤ 500) ∧
    some (125 / 3 : ℚ) ∈ [some (125 / 3 : ℚ)] ∧
    (∃ b ∈ categoriesList, b.c_lo ≤ (125 / 3 : ℚ) ∧ (125 / 3 : ℚ) ≤ b.c_hi) := by
  have hsub : calculate_sub_index (some 10) "pm25" = some (125 / 3) := by
    rw [calculate_sub_index_eq _ _ pm25segs breakpoints_pm25]
    simp only [pm25segs, findSeg]
    rw [if_pos (by norm_num [segContains])]
    norm_num [interp]
  have hmax : nanmax [some (125 / 3 : ℚ)] = some (125 / 3) := rfl
  exact ⟨C10_bounds.1 "pm25" 10 (125 / 3) hsub,
    C10_bounds.2.1 [some (125 / 3)] (125 / 3) hmax,
    C10_bounds.2.2.2 "pm25" 10 (125 / 3) hsub⟩

/- Plumbing lemmas for the table-level classifier. -/

theorem setColList_fst : ∀ (l : List (String × List Value)) (c : String) (vs : List Value),
    (setColList l c vs).map Prod.fst =
      if c ∈ l.map Prod.fst then l.map Prod.fst else l.map Prod.fst ++ [c] := by
  intro l c vs
  induction l with
  | nil => simp [setColList]
  | cons hd tl ih =>
    obtain ⟨k, old⟩ := hd
    simp only [setColList]
    by_cases hck : c = k
    · subst hck
      rw [if_pos rfl]
      simp
    · rw [if_neg hck]
      simp only [List.map_cons, ih]
      by_cases hmem : c ∈ tl.map Prod.fst
      · rw [if_pos hmem, if_pos (by simp [hmem])]
      · rw [if_neg hmem, if_neg (by simp [hck, hmem])]
        simp

theorem names_setCol (t : Table) (c : String) (vs : List Value) :
    names (setCol t c vs) = if c ∈ names t then names t else names t ++ [c] := by
  simp only [names, setCol]
  exact setColList_fst t.cols c vs

theorem mem_names_setCol_self (t : Table) (c : String) (vs : List Value) :
    c ∈ names (setCol t c vs) := by
  rw [names_setCol]
  by_cases h : c ∈ names t
  · rwa [if_pos h]
  · rw [if_neg h]
    exact List.mem_append_right _ (List.mem_singleton_self c)

theorem mem_names_setCol_mono (t : Table) (c : String) (vs : List Value) (c' : String)
    (h : c' ∈ names t) : c' ∈ names (setCol t c vs) := by
  rw [names_setCol]
  by_cases hc : c ∈ names t
  · rwa [if_pos hc]
  · rw [if_neg hc]
    exact List.mem_append_left _ h

theorem not_mem_names_setCol (t : Table) (c : String) (vs : List Value) (c' : String)
    (h1 : c' ∉ names t) (h2 : c' ≠ c) : c' ∉ names (setCol t c vs) := by
  rw [names_setCol]
  by_cases hc : c ∈ names t
  · rwa [if_pos hc]
  · rw [if_neg hc]
    intro hmem
    rcases List.mem_append.mp hmem with h3 | h3
    · exact h1 h3
    · simp only [List.mem_singleton] at h3
      exact h2 h3

theorem lookupA_setColList_self : ∀ (l : List (String × List Value)) (c : String)
    (vs : List Value), lookupA (setColList l c vs) c = some vs := by
  intro l c vs
  induction l with
  | nil => simp [setColList, lookupA]
  | cons hd tl ih =>
    obtain ⟨k, old⟩ := hd
    simp only [setColList]
    by_cases hck : c = k
    · subst hck
      rw [if_pos rfl]
      simp [lookupA]
    · rw [if_neg hck]
      simp only [lookupA]
      rw [if_neg hck]
      exact ih

theorem lookupA_setColList_other : ∀ (l : List (String × List Value)) (c : String)
    (vs : List Value) (c' : String), c' ≠ c →
    lookupA (setColList l c vs) c' = lookupA l c' := by
  intro l c vs c' hne
  induction l with
  | nil => simp [setColList, lookupA, hne]
  | cons hd tl ih =>
    obtain ⟨k, old⟩ := hd
    simp only [setColList]
    by_cases hck : c = k
    · subst hck
      simp only [if_pos rfl, lookupA]
      rw [if_neg hne, if_neg hne]
    · rw [if_neg hck]
      simp only [lookupA]
      by_cases h2 : c' = k
      · rw [if_pos h2, if_pos h2]
      · rw [if_neg h2, if_neg h2]
        exact ih

theorem getColD_setCol_self (t : Table) (c : String) (vs : List Value) :
    getColD (setCol t c vs) c = vs := by
  simp [getColD, setCol, lookupA_setColList_self]

theorem getColD_setCol_other (t : Table) (c : String) (vs : List Value) (c' : String)
    (h : c' ≠ c) : getColD (setCol t c vs) c' = getColD t c' := by
  simp [getColD, setCol, lookupA_setColList_other t.cols c vs c' h]

theorem backfillFold_nrows (wg : String → Nat → ℚ) :
    ∀ (l : List (String × ℚ × ℚ)) (t : Table), (backfillFold wg t l).nrows = t.nrows := by
  intro l
  induction l with
  | nil => intro t; rfl
  | cons hd tl ih =>
    intro t
    obtain ⟨f, a, b⟩ := hd
    simp only [backfillFold]
    by_cases h : f ∈ names t
    · rw [if_pos h, ih]
    · rw [if_neg h, ih]
      rfl

theorem backfillFold_get (wg : String → Nat → ℚ) :
    ∀ (l : List (String × ℚ × ℚ)) (t : Table) (c : String),
      c ∈ names t → getColD (backfillFold wg t l) c = getColD t c := by
  intro l
  induction l with
  | nil => intro t c _; rfl
  | cons hd tl ih =>
    intro t c h
    obtain ⟨f, a, b⟩ := hd
    simp only [backfillFold]
    by_cases hf : f ∈ names t
    · rw [if_pos hf]
      exact ih t c h
    · rw [if_neg hf]
      have hcf : c ≠ f := fun he => hf (he ▸ h)
      rw [ih _ c (mem_names_setCol_mono t f _ c h),
        getColD_setCol_other t f _ c hcf]

theorem mem_setColList : ∀ (l : List (String × List Value)) (c : String)
    (vs : List Value) (cv : String × List Value),
    cv ∈ setColList l c vs → cv ∈ l ∨ cv = (c, vs) := by
  intro l c vs cv
  induction l with
  | nil =>
    intro h
    simp only [setColList, List.mem_singleton] at h
    exact Or.inr h
  | cons hd tl ih =>
    obtain ⟨k, old⟩ := hd
    intro h
    simp only [setColList] at h
    by_cases hck : c = k
    · rw [if_pos hck] at h
      rcases List.mem_cons.mp h with h1 | h1
      · exact Or.inr (by rw [h1, hck])
      · exact Or.inl (List.mem_cons_of_mem _ h1)
    · rw [if_neg hck] at h
      rcases List.mem_cons.mp h with h1 | h1
      · exact Or.inl (h1 ▸ List.mem_cons_self _ _)
      · rcases ih h1 with h2 | h2
        · exact Or.inl (List.mem_cons_of_mem _ h2)
        · exact Or.inr h2

theorem noStrTable_setCol (t : Table) (c : String) (vs : List Value)
    (h : noStrTable t) (hvs : ∀ v ∈ vs, isStrV v = false) :
    noStrTable (setCol t c vs) := by
  intro cv hcv v hv
  rcases mem_setColList t.cols c vs cv hcv with hmem | heq
  · exact h cv hmem v hv
  · subst heq
    exact hvs v hv

theorem noStr_getColD (t : Table) (h : noStrTable t) (c : String) :
    ∀ v ∈ getColD t c, isStrV v = false := by
  intro v hv
  unfold getColD at hv
  cases hl : lookupA t.cols c with
  | none =>
    rw [hl] at hv
    simp only [Option.getD_none] at hv
    rw [List.eq_of_mem_replicate hv]
    rfl
  | some col =>
    rw [hl] at hv
    simp only [Option.getD_some] at hv
    have hcol := lookupA_mem t.cols c col hl
    obtain ⟨cv, hcv, hsnd⟩ := List.mem_map.mp hcol
    exact h cv hcv v (hsnd ▸ hv)

theorem isStrV_optToValue (o : Option ℚ) : isStrV (optToValue o) = false := by
  cases o <;> rfl

theorem toOpt_optToValue (o : Option ℚ) : toOpt (optToValue o) = o := by
  cases o <;> rfl

theorem toOpt_subIdxVal (p : String) (v : Value) :
    toOpt (subIdxVal p v) = calculate_sub_index (toOpt v) p := by
  unfold subIdxVal
  exact toOpt_optToValue _

theorem calcSubIndexV_nonstr (v : Value) (p : String) (h : isStrV v = false) :
    calcSubIndexV v p = .ok (subIdxVal p v) := by
  cases v with
  | vstr s => simp [isStrV] at h
  | nan =>
    simp only [calcSubIndexV, isNA]
    rw [if_pos (Or.inl trivial)]
    rfl
  | num c =>
    simp only [calcSubIndexV, isNA]
    cases hbp : breakpoints p with
    | none =>
      rw [if_pos (Or.inr rfl)]
      simp [subIdxVal, toOpt, calculate_sub_index_some, hbp, optToValue]
    | some segs =>
      rw [if_neg (by simp)]
      simp [subIdxVal, toOpt, calculate_sub_index_eq c p segs hbp]

theorem colMapExc_ok (p : String) : ∀ (vs : List Value),
    (∀ v ∈ vs, isStrV v = false) →
    colMapExc p vs = .ok (vs.map (subIdxVal p)) := by
  intro vs
  induction vs with
  | nil => intro _; rfl
  | cons v vs ih =>
    intro h
    simp only [colMapExc]
    rw [calcSubIndexV_nonstr v p (h v (List.mem_cons_self _ _)),
      ih fun u hu => h u (List.mem_cons_of_mem _ hu)]
    rfl

theorem string_append_right_inj (s a b : String) (h : s ++ a = s ++ b) : a = b := by
  have hd := congrArg String.data h
  rw [String.data_append, String.data_append] at hd
  exact String.ext (List.append_cancel_left hd)

theorem aqiColName_inj (a b : String) (h : aqiColName a = aqiColName b) : a = b :=
  string_append_right_inj "AQI_" a b h

theorem aqiKeys_nodup : aqiKeys.Nodup := by
  simp [aqiKeys, breakpointTable]

theorem aqiKeys_not_aqi : ∀ p ∈ aqiKeys, ∀ q ∈ aqiKeys, aqiColName p ≠ q := by
  intro p hp q hq
  simp only [aqiKeys, breakpointTable, List.map_cons, List.map_nil, List.mem_cons,
    List.not_mem_nil, or_false] at hp hq
  rcases hp with h | h | h | h | h | h <;> subst h <;>
    rcases hq with h | h | h | h | h | h <;> subst h <;> simp [aqiColName]

theorem filter_ext_mem {α : Type} (f g : α → Bool) :
    ∀ l : List α, (∀ a ∈ l, f a = g a) → l.filter f = l.filter g := by
  intro l h
  exact List.filter_congr h

theorem map_ext_mem {α β : Type} (f g : α → β) :
    ∀ l : List α, (∀ a ∈ l, f a = g a) → l.map f = l.map g := by
  intro l h
  exact List.map_congr_left h

/-- The sub-index loop characterized under the hypotheses that no
`AQI_<p>` column pre-exists and no cell is non-numeric. -/
theorem addAQIFold_spec : ∀ (ps : List String) (t : Table),
    ps.Nodup →
    (∀ p ∈ ps, ∀ q ∈ ps, aqiColName p ≠ q) →
    (∀ p ∈ ps, aqiColName p ∉ names t) →
    noStrTable t →
    ∃ t1, addAQIFold t ps = .ok t1 ∧
      t1.nrows = t.nrows ∧
      names t1 = names t ++
        (ps.filter (fun p => decide (p ∈ names t))).map aqiColName ∧
      (∀ c, (∀ p ∈ ps, c ≠ aqiColName p) → getColD t1 c = getColD t c) ∧
      (∀ p ∈ ps, p ∈ names t → getColD t1 (aqiColName p) = (getColD t p).map (subIdxVal p)) := by
  intro ps
  induction ps with
  | nil =>
    intro t _ _ _ _
    exact ⟨t, rfl, rfl, by simp, fun c _ => rfl, fun p hp => absurd hp (by simp)⟩
  | cons p ps ih =>
    intro t hnd hinj h1 h2
    have hnd2 := List.nodup_cons.mp hnd
    have hinj2 : ∀ a ∈ ps, ∀ b ∈ ps, aqiColName a ≠ b := fun a ha b hb =>
      hinj a (List.mem_cons_of_mem _ ha) b (List.mem_cons_of_mem _ hb)
    by_cases hp : p ∈ names t
    · have hcol := noStr_getColD t h2 p
      have hstep : addAQIStep t p =
          .ok (setCol t (aqiColName p) ((getColD t p).map (subIdxVal p))) := by
        simp only [addAQIStep]
        rw [if_pos hp, colMapExc_ok p (getColD t p) hcol]
      have hnames2 : names (setCol t (aqiColName p) ((getColD t p).map (subIdxVal p))) =
          names t ++ [aqiColName p] := by
        rw [names_setCol, if_neg (h1 p (List.mem_cons_self _ _))]
      have h1' : ∀ a ∈ ps,
          aqiColName a ∉ names (setCol t (aqiColName p) ((getColD t p).map (subIdxVal p))) := by
        intro a ha hmem
        rw [hnames2] at hmem
        rcases List.mem_append.mp hmem with h3 | h3
        · exact h1 a (List.mem_cons_of_mem _ ha) h3
        · simp only [List.mem_singleton] at h3
          exact hnd2.1 (aqiColName_inj a p h3 ▸ ha)
      have h2' : noStrTable (setCol t (aqiColName p) ((getColD t p).map (subIdxVal p))) := by
        refine noStrTable_setCol t _ _ h2 ?_
        intro v hv
        obtain ⟨u, _, hu⟩ := List.mem_map.mp hv
        rw [← hu]
        exact isStrV_optToValue _
      obtain ⟨t1, hfold, hnr, hnames, hother, haqi⟩ :=
        ih (setCol t (aqiColName p) ((getColD t p).map (subIdxVal p))) hnd2.2 hinj2 h1' h2'
      refine ⟨t1, ?_, hnr, ?_, ?_, ?_⟩
      · simp only [addAQIFold]
        rw [hstep]
        exact hfold
      · rw [hnames, hnames2]
        have hfe : ps.filter (fun a => decide (a ∈ names t ++ [aqiColName p])) =
            ps.filter (fun a => decide (a ∈ names t)) := by
          refine filter_ext_mem _ _ ps ?_
          intro a ha
          refine decide_eq_decide.mpr ?_
          constructor
          · intro hmem
            rcases List.mem_append.mp hmem with h3 | h3
            · exact h3
            · simp only [List.mem_singleton] at h3
              exact absurd h3.symm (hinj p (List.mem_cons_self _ _) a
                (List.mem_cons_of_mem _ ha))
          · intro hmem
            exact List.mem_append_left _ hmem
        rw [hfe]
        simp only [List.filter_cons, decide_eq_true_eq]
        rw [if_pos hp]
        simp [List.append_assoc]
      · intro c hc
        rw [hother c fun a ha => hc a (List.mem_cons_of_mem _ ha),
          getColD_setCol_other t _ _ c (hc p (List.mem_cons_self _ _))]
      · intro a ha hamem
        rcases List.mem_cons.mp ha with ha1 | ha1
        · subst ha1
          rw [hother (aqiColName a) fun q hq he =>
            hnd2.1 (aqiColName_inj a q he ▸ hq),
            getColD_setCol_self]
        · have hane : a ≠ aqiColName p :=
            fun he => hinj p (List.mem_cons_self _ _) a (List.mem_cons_of_mem _ ha1) he.symm
          have hamem2 : a ∈ names (setCol t (aqiColName p) ((getColD t p).map (subIdxVal p))) :=
            mem_names_setCol_mono t _ _ a hamem
          rw [haqi a ha1 hamem2, getColD_setCol_other t _ _ a hane]
    · have hstep : addAQIStep t p = .ok t := by
        simp only [addAQIStep]
        rw [if_neg hp]
      obtain ⟨t1, hfold, hnr, hnames, hother, haqi⟩ :=
        ih t hnd2.2 hinj2 (fun a ha => h1 a (List.mem_cons_of_mem _ ha)) h2
      refine ⟨t1, ?_, hnr, ?_, ?_, ?_⟩
      · simp only [addAQIFold]
        rw [hstep]
        exact hfold
      · rw [hnames]
        simp only [List.filter_cons, decide_eq_true_eq]
        rw [if_neg hp]
      · intro c hc
        exact hother c fun a ha => hc a (List.mem_cons_of_mem _ ha)
      · intro a ha hamem
        rcases List.mem_cons.mp ha with ha1 | ha1
        · exact absurd (ha1 ▸ hamem) hp
        · exact haqi a ha1 hamem

theorem aqiColsAux_eq : ∀ (ps : List String) (t1 : Table),
    aqiColsAux t1 ps =
      (ps.filter (fun p => decide (aqiColName p ∈ names t1))).map aqiColName := by
  intro ps t1
  induction ps with
  | nil => rfl
  | cons p ps ih =>
    simp only [aqiColsAux, List.filter_cons, decide_eq_true_eq]
    by_cases h : aqiColName p ∈ names t1
    · rw [if_pos h, if_pos h, ih]
      rfl
    · rw [if_neg h, if_neg h, ih]

theorem overallLoop_ok (t1 : Table) (cols : List String) (G : Nat → Option ℚ) :
    ∀ l : List Nat,
    (∀ i ∈ l, rowMaxV (cols.map fun c => cell t1 c i) = .ok (G i)) →
    overallLoop t1 cols l = .ok (l.map G) := by
  intro l
  induction l with
  | nil => intro _; rfl
  | cons i is ih =>
    intro h
    simp only [overallLoop]
    rw [h i (List.mem_cons_self _ _), ih fun j hj => h j (List.mem_cons_of_mem _ hj)]
    rfl

theorem rowMaxAux_nonstr : ∀ (vs : List Value) (acc : Option ℚ),
    (∀ v ∈ vs, isStrV v = false) →
    rowMaxAux acc vs = .ok (nanmaxAux acc (vs.map toOpt)) := by
  intro vs
  induction vs with
  | nil => intro acc _; rfl
  | cons v vs ih =>
    intro acc h
    cases v with
    | vstr s => exact absurd (h _ (List.mem_cons_self _ _)) (by simp [isStrV])
    | nan =>
      simp only [rowMaxAux, maxStep, List.map_cons, toOpt, nanmaxAux]
      cases acc with
      | none => exact ih none fun u hu => h u (List.mem_cons_of_mem _ hu)
      | some a => exact ih (some a) fun u hu => h u (List.mem_cons_of_mem _ hu)
    | num q =>
      cases acc with
      | none =>
        simp only [rowMaxAux, maxStep, List.map_cons, toOpt, nanmaxAux]
        exact ih (some q) fun u hu => h u (List.mem_cons_of_mem _ hu)
      | some a =>
        simp only [rowMaxAux, maxStep, List.map_cons, toOpt, nanmaxAux]
        exact ih (some (max a q)) fun u hu => h u (List.mem_cons_of_mem _ hu)

theorem backfillWeather_nrows (wg : String → Nat → ℚ) (t : Table) :
    (backfillWeather wg t).nrows = t.nrows :=
  backfillFold_nrows wg weatherDefaults t

theorem backfillWeather_get (wg : String → Nat → ℚ) (t : Table) (c : String)
    (h : c ∈ names t) : getColD (backfillWeather wg t) c = getColD t c :=
  backfillFold_get wg weatherDefaults t c h

/-- Unfolding of the classifier body once the sub-index loop succeeded. -/
theorem classifyBody_fold_ok (wg : String → Nat → ℚ) (t t1 : Table)
    (h : addAQIFold t aqiKeys = .ok t1) :
    classifyBody wg t =
      if aqiColsOf t1 = [] then
        .ok (backfillWeather wg
          (setCol (setCol t1 "Overall_AQI" (List.replicate t1.nrows Value.nan))
            "AQI_Category" (List.replicate t1.nrows (Value.vstr "Indisponível"))))
      else
        match overallLoop t1 (aqiColsOf t1) (List.range t1.nrows) with
        | .error _ => .error t1
        | .ok ov =>
          .ok (backfillWeather wg
            (setCol (setCol t1 "Overall_AQI" (ov.map optToValue))
              "AQI_Category" (ov.map fun o => Value.vstr (get_category o)))) := by
  unfold classifyBody
  rw [h]

theorem cell_of_map (t1 t : Table) (c p : String) (f : Value → Value)
    (hcol : getColD t1 c = (getColD t p).map f) (hf : f Value.nan = Value.nan) (i : Nat) :
    cell t1 c i = f (cell t p i) := by
  unfold cell
  rw [hcol, List.get?_map]
  cases h : (getColD t p).get? i with
  | none => simp [h, hf]
  | some v => simp [h]

/-- The classifier body succeeds on a table with no pre-existing
`AQI_<p>` columns and no non-numeric cells, and produces the row-wise
NaN-skipping maximum of the sub-indices (or the NaN / `'Indisponível'`
columns when no pollutant column is present). -/
theorem classifyBody_ok (wg : String → Nat → ℚ) (t : Table)
    (h1 : ∀ p ∈ aqiKeys, aqiColName p ∉ names t) (h2 : noStrTable t) :
    ∃ t3, classifyBody wg t = .ok t3 ∧
      (hitKeys t ≠ [] →
        getColD t3 "Overall_AQI" =
          (List.range t.nrows).map fun i => optToValue (expectedOverall t i)) ∧
      (hitKeys t = [] →
        getColD t3 "Overall_AQI" = List.replicate t.nrows Value.nan ∧
        getColD t3 "AQI_Category" = List.replicate t.nrows (Value.vstr "Indisponível")) := by
  obtain ⟨t1, hfold, hnr, hnames, hother, haqi⟩ :=
    addAQIFold_spec aqiKeys t aqiKeys_nodup aqiKeys_not_aqi h1 h2
  have hcols : aqiColsOf t1 = (hitKeys t).map aqiColName := by
    unfold aqiColsOf hitKeys
    rw [aqiColsAux_eq]
    congr 1
    refine filter_ext_mem _ _ aqiKeys ?_
    intro p hp
    refine decide_eq_decide.mpr ?_
    rw [hnames]
    constructor
    · intro hmem
      rcases List.mem_append.mp hmem with h3 | h3
      · exact absurd h3 (h1 p hp)
      · obtain ⟨q, hq, hqe⟩ := List.mem_map.mp h3
        have : q = p := aqiColName_inj q p hqe
        subst this
        exact (List.mem_filter.mp hq).2 |> decide_eq_true_eq.mp
    · intro hmem
      refine List.mem_append_right _ (List.mem_map.mpr ⟨p, ?_, rfl⟩)
      exact List.mem_filter.mpr ⟨hp, decide_eq_true_eq.mpr hmem⟩
  by_cases hhit : hitKeys t = []
  · have hempty : aqiColsOf t1 = [] := by rw [hcols, hhit]; rfl
    refine ⟨backfillWeather wg
      (setCol (setCol t1 "Overall_AQI" (List.replicate t1.nrows Value.nan))
        "AQI_Category" (List.replicate t1.nrows (Value.vstr "Indisponível"))), ?_, ?_, ?_⟩
    · rw [classifyBody_fold_ok wg t t1 hfold, if_pos hempty]
    · intro h; exact absurd hhit h
    · intro _
      have hobc : ("Overall_AQI" : String) ≠ "AQI_Category" := by simp
      constructor
      · rw [backfillWeather_get wg _ "Overall_AQI"
            (mem_names_setCol_mono _ _ _ _ (mem_names_setCol_self _ _ _)),
          getColD_setCol_other _ _ _ _ hobc, getColD_setCol_self, hnr]
      · rw [backfillWeather_get wg _ "AQI_Category"
            (mem_names_setCol_self _ _ _),
          getColD_setCol_self, hnr]
  · have hne : aqiColsOf t1 ≠ [] := by
      rw [hcols]
      simp [hhit]
    have hloop : overallLoop t1 (aqiColsOf t1) (List.range t1.nrows) =
        .ok ((List.range t1.nrows).map fun i => expectedOverall t i) := by
      refine overallLoop_ok t1 (aqiColsOf t1) (fun i => expectedOverall t i)
        (List.range t1.nrows) ?_
      intro i _
      rw [hcols, List.map_map]
      have hrow : (hitKeys t).map (fun p => cell t1 (aqiColName p) i) =
          (hitKeys t).map fun p => subIdxVal p (cell t p i) := by
        refine map_ext_mem _ _ (hitKeys t) ?_
        intro p hp
        have hp2 := List.mem_filter.mp hp
        exact cell_of_map t1 t (aqiColName p) p (subIdxVal p)
          (haqi p hp2.1 (decide_eq_true_eq.mp hp2.2)) rfl i
      show rowMaxV ((hitKeys t).map fun p => cell t1 (aqiColName p) i) = _
      rw [hrow]
      unfold rowMaxV
      rw [rowMaxAux_nonstr _ none ?hstr]
      case hstr =>
        intro v hv
        obtain ⟨q, _, hq⟩ := List.mem_map.mp hv
        rw [← hq]
        exact isStrV_optToValue _
      rw [List.map_map]
      have hcomp : (hitKeys t).map (toOpt ∘ fun p => subIdxVal p (cell t p i)) =
          (hitKeys t).map fun p => calculate_sub_index (toOpt (cell t p i)) p := by
        refine map_ext_mem _ _ (hitKeys t) ?_
        intro p _
        exact toOpt_subIdxVal p (cell t p i)
      rw [hcomp]
      rfl
    refine ⟨backfillWeather wg
      (setCol (setCol t1 "Overall_AQI"
          (((List.range t1.nrows).map fun i => expectedOverall t i).map optToValue))
        "AQI_Category"
        (((List.range t1.nrows).map fun i => expectedOverall t i).map
          fun o => Value.vstr (get_category o))), ?_, ?_, ?_⟩
    · rw [classifyBody_fold_ok wg t t1 hfold, if_neg hne, hloop]
    · intro _
      have hobc : ("Overall_AQI" : String) ≠ "AQI_Category" := by simp
      rw [backfillWeather_get wg _ "Overall_AQI"
          (mem_names_setCol_mono _ _ _ _ (mem_names_setCol_self _ _ _)),
        getColD_setCol_other _ _ _ _ hobc, getColD_setCol_self, List.map_map, hnr]
      rfl
    · intro h; exact absurd h hhit

/-- C3 (amended): for every input table whose cells are numeric or NaN
and which has no pre-existing `AQI_<p>` column, each row's `Overall_AQI`
is the NaN-skipping maximum of the sub-indices of the row's pollutant
cells (absent pollutants contribute nothing); when no recognized
pollutant column is present, every row gets NaN and `'Indisponível'`,
without failing.  The concrete row with sub-indices `[50, 120, NaN]`
gets 120.  (The un-amended claim fails when a stray `AQI_<p>` column
pre-exists: see `C3_counterexample`.) -/
theorem C3_overall_rowmax_amended :
    (∀ (wg : String → Nat → ℚ) (t : Table),
      (∀ p ∈ aqiKeys, aqiColName p ∉ names t) →
      noStrTable t →
      (hitKeys t ≠ [] →
        getColD (classify_aqi wg t) "Overall_AQI" =
          (List.range t.nrows).map fun i => optToValue (expectedOverall t i)) ∧
      (hitKeys t = [] →
        getColD (classify_aqi wg t) "Overall_AQI" = List.replicate t.nrows Value.nan ∧
        getColD (classify_aqi wg t) "AQI_Category" =
          List.replicate t.nrows (Value.vstr "Indisponível"))) ∧
    getColD (classify_aqi wg0 tableC3b) "Overall_AQI" = [Value.num 120] ∧
    expectedOverall tableC3b 0 = some 120 := by
  have hgen : ∀ (wg : String → Nat → ℚ) (t : Table),
      (∀ p ∈ aqiKeys, aqiColName p ∉ names t) →
      noStrTable t →
      (hitKeys t ≠ [] →
        getColD (classify_aqi wg t) "Overall_AQI" =
          (List.range t.nrows).map fun i => optToValue (expectedOverall t i)) ∧
      (hitKeys t = [] →
        getColD (classify_aqi wg t) "Overall_AQI" = List.replicate t.nrows Value.nan ∧
        getColD (classify_aqi wg t) "AQI_Category" =
          List.replicate t.nrows (Value.vstr "Indisponível")) := by
    intro wg t h1 h2
    obtain ⟨t3, hbody, hA, hB⟩ := classifyBody_ok wg t h1 h2
    have hcls : classify_aqi wg t = t3 := by
      unfold classify_aqi
      rw [hbody]
    rw [hcls]
    exact ⟨hA, hB⟩
  have c1 : cell tableC3b "pm25" 0 = Value.num 12 := rfl
  have c2 : cell tableC3b "pm10" 0 = Value.num (9476 / 49) := rfl
  have c3 : cell tableC3b "o3" 0 = Value.nan := rfl
  have s1 : calculate_sub_index (some 12) "pm25" = some 50 := by
    rw [calculate_sub_index_eq _ _ pm25segs breakpoints_pm25]
    simp only [pm25segs, findSeg]
    rw [if_pos (by norm_num [segContains])]
    norm_num [interp]
  have s2 : calculate_sub_index (some (9476 / 49)) "pm10" = some 120 := by
    rw [calculate_sub_index_eq _ _ pm10segs breakpoints_pm10]
    simp only [pm10segs, findSeg]
    rw [if_neg (by norm_num [segContains]), if_neg (by norm_num [segContains]),
      if_pos (by norm_num [segContains])]
    norm_num [interp]
  have s3 : calculate_sub_index none "o3" = none := rfl
  have hexp : expectedOverall tableC3b 0 = some 120 := by
    have hks : hitKeys tableC3b = ["pm25", "pm10", "o3"] := by decide
    unfold expectedOverall
    rw [hks]
    simp only [List.map_cons, List.map_nil, c1, c2, c3, toOpt]
    rw [s1, s2, s3]
    have hm : max (50 : ℚ) 120 = 120 := max_eq_right (by norm_num)
    simp [nanmax, nanmaxAux, hm]
  refine ⟨hgen, ?_, hexp⟩
  have h1b : ∀ p ∈ aqiKeys, aqiColName p ∉ names tableC3b := by decide
  have h2b : noStrTable tableC3b := by decide
  have hhit : hitKeys tableC3b ≠ [] := by decide
  rw [(hgen wg0 tableC3b h1b h2b).1 hhit]
  have hr : List.range tableC3b.nrows = [0] := by decide
  rw [hr]
  simp [hexp, optToValue]

/-- C3 counterexample to the claim as stated: on a table whose only
column is a stray pre-existing `AQI_pm25` column — so no recognized
pollutant column is present at all — the classifier does not produce
NaN / `'Indisponível'`; the stray column feeds the maximum instead. -/
theorem C3_counterexample :
    (∀ p ∈ aqiKeys, p ∉ names tableC3) ∧
    getColD (classify_aqi wg0 tableC3) "Overall_AQI" = [Value.num 60] ∧
    getColD (classify_aqi wg0 tableC3) "AQI_Category" =
      [Value.vstr (get_category (some 60))] ∧
    get_category (some 60) = "Moderada" := by
  refine ⟨by decide, rfl, rfl, ?_⟩
  norm_num [get_category, lookupCat, categoriesList]

/-- Witness for C3 (amended) at the concrete table with sub-indices
`[50, 120, NaN]`. -/
theorem C3_witness :
    getColD (classify_aqi wg0 tableC3b) "Overall_AQI" =
      (List.range tableC3b.nrows).map (fun i => optToValue (expectedOverall tableC3b i)) :=
  (C3_overall_rowmax_amended.1 wg0 tableC3b (by decide) (by decide)).1 (by decide)

theorem profileLookup_total : ∀ (l : List (String × Profile)) (s : String),
    profileLookup l s ∈ l.map Prod.snd ∨ profileLookup l s = defaultProfile := by
  intro l s
  induction l with
  | nil => exact Or.inr rfl
  | cons hd tl ih =>
    obtain ⟨k, pr⟩ := hd
    simp only [profileLookup]
    by_cases h : substrB k s = true
    · rw [if_pos h]
      exact Or.inl (List.mem_cons_self _ _)
    · rw [if_neg h]
      rcases ih with h2 | h2
      · exact Or.inl (List.mem_cons_of_mem _ h2)
      · exact Or.inr h2

theorem profileLookup_nomatch : ∀ (l : List (String × Profile)) (s : String),
    (∀ k ∈ l.map Prod.fst, substrB k s = false) →
    profileLookup l s = defaultProfile := by
  intro l s
  induction l with
  | nil => intro _; rfl
  | cons hd tl ih =>
    obtain ⟨k, pr⟩ := hd
    intro h
    simp only [profileLookup]
    rw [if_neg (by simp [h k (by simp)])]
    exact ih fun k2 hk2 => h k2 (List.mem_cons_of_mem _ hk2)

theorem foldl_invariant {α β : Type} (f : β → α → β) (P : β → Prop)
    (hstep : ∀ b a, P b → P (f b a)) : ∀ (l : List α) (b : β), P b → P (l.foldl f b) := by
  intro l
  induction l with
  | nil => intro b h; exact h
  | cons a l ih =>
    intro b h
    exact ih (f b a) (hstep b a h)

theorem paramStep_le (rng : Rng) (location : String) (pr : Profile) (d : Date) (hour : Nat)
    (temperature humidity pressure wind_speed : ℚ) (limit : Nat)
    (acc : List GenRecord) (param : String) (h : acc.length ≤ limit) :
    (paramStep rng location pr d hour temperature humidity pressure wind_speed limit
      acc param).length ≤ limit := by
  unfold paramStep
  by_cases hl : limit ≤ acc.length
  · rw [if_pos hl]
    exact h
  · rw [if_neg hl]
    simp only [List.length_append, List.length_singleton]
    omega

theorem hourStep_le (rng : Rng) (location : String) (pr : Profile) (limit : Nat) (d : Date)
    (acc : List GenRecord) (hour : Nat) (h : acc.length ≤ limit) :
    (hourStep rng location pr limit d acc hour).length ≤ limit := by
  unfold hourStep
  by_cases hl : limit ≤ acc.length
  · rw [if_pos hl]
    exact h
  · rw [if_neg hl]
    exact foldl_invariant _ (fun b => b.length ≤ limit)
      (fun b a hb => paramStep_le rng location pr d hour _ _ _ _ limit b a hb)
      parameters acc h

theorem dayLoop_le (rng : Rng) (location : String) (pr : Profile) (limit : Nat)
    (endD : Date) : ∀ (fuel : Nat) (cur : Date) (acc : List GenRecord),
    acc.length ≤ limit →
    (dayLoop rng location pr limit endD fuel cur acc).length ≤ limit := by
  intro fuel
  induction fuel with
  | zero => intro cur acc h; exact h
  | succ fuel ih =>
    intro cur acc h
    simp only [dayLoop]
    by_cases hstop : dateLt endD cur = true ∨ limit ≤ acc.length
    · rw [if_pos hstop]
      exact h
    · rw [if_neg hstop]
      refine ih (nextDay cur) _ ?_
      exact foldl_invariant _ (fun b => b.length ≤ limit)
        (fun b a hb => hourStep_le rng location pr limit cur b a hb)
        (List.range 24) acc h

theorem paramFold_map (rng : Rng) (loc : String) (pr : Profile) (d : Date) (hour : Nat)
    (t h2 p2 w2 : ℚ) (limit : Nat) :
    ∀ (ps : List String) (acc : List GenRecord), acc.length + ps.length ≤ limit →
    ps.foldl (paramStep rng loc pr d hour t h2 p2 w2 limit) acc =
      acc ++ ps.map (mkRecord rng loc pr d hour t h2 p2 w2) := by
  intro ps
  induction ps with
  | nil => intro acc _; simp
  | cons p ps ih =>
    intro acc h
    have hlt : ¬ limit ≤ acc.length := by
      simp only [List.length_cons] at h
      omega
    have hstep : paramStep rng loc pr d hour t h2 p2 w2 limit acc p =
        acc ++ [mkRecord rng loc pr d hour t h2 p2 w2 p] := by
      unfold paramStep
      rw [if_neg hlt]
    rw [List.foldl_cons, hstep,
      ih (acc ++ [mkRecord rng loc pr d hour t h2 p2 w2 p])
        (by simp only [List.length_append, List.length_singleton, List.length_cons,
              List.length_nil] at h ⊢
            omega)]
    simp [List.append_assoc]

theorem hourStep_stop (rng : Rng) (loc : String) (pr : Profile) (limit : Nat) (d : Date)
    (acc : List GenRecord) (hour : Nat) (h : limit ≤ acc.length) :
    hourStep rng loc pr limit d acc hour = acc := by
  unfold hourStep
  rw [if_pos h]

theorem hourFold_stop (rng : Rng) (loc : String) (pr : Profile) (limit : Nat) (d : Date) :
    ∀ (hs : List Nat) (acc : List GenRecord), limit ≤ acc.length →
    hs.foldl (hourStep rng loc pr limit d) acc = acc := by
  intro hs
  induction hs with
  | nil => intro acc _; rfl
  | cons hour hs ih =>
    intro acc h
    rw [List.foldl_cons, hourStep_stop rng loc pr limit d acc hour h]
    exact ih acc h

theorem dayLoop_step (rng : Rng) (loc : String) (pr : Profile) (limit : Nat) (endD : Date)
    (fuel : Nat) (cur : Date) (acc : List GenRecord)
    (h : ¬(dateLt endD cur = true ∨ limit ≤ acc.length)) :
    dayLoop rng loc pr limit endD (fuel + 1) cur acc =
      dayLoop rng loc pr limit endD fuel (nextDay cur)
        ((List.range 24).foldl (hourStep rng loc pr limit cur) acc) := by
  show (if dateLt endD cur = true ∨ limit ≤ acc.length then acc
    else dayLoop rng loc pr limit endD fuel (nextDay cur)
      ((List.range 24).foldl (hourStep rng loc pr limit cur) acc)) = _
  rw [if_neg h]

theorem dayLoop_stop (rng : Rng) (loc : String) (pr : Profile) (limit : Nat) (endD : Date) :
    ∀ (fuel : Nat) (cur : Date) (acc : List GenRecord),
    (dateLt endD cur = true ∨ limit ≤ acc.length) →
    dayLoop rng loc pr limit endD fuel cur acc = acc := by
  intro fuel cur acc h
  cases fuel with
  | zero => rfl
  | succ fuel =>
    show (if dateLt endD cur = true ∨ limit ≤ acc.length then acc
      else dayLoop rng loc pr limit endD fuel (nextDay cur)
        ((List.range 24).foldl (hourStep rng loc pr limit cur) acc)) = acc
    rw [if_pos h]

/- ----------------------------------------------------------------- -/
/- Claim theorems for the generator and profile resolver.            -/
/- ----------------------------------------------------------------- -/

/-- C5: the generator's soft-fail contract: an empty location, empty
`date_from`, empty `date_to`, an unparseable date (in either position),
or `date_from > date_to` all produce the empty sequence — failure is
signalled only by absence of data (the embedding is a total function, so
no exception escapes). -/
theorem C5_soft_fail :
    (∀ (rng : Rng) (df dt : String) (lim : Nat),
      generate_realistic_air_quality_data rng "" df dt lim = []) ∧
    (∀ (rng : Rng) (loc dt : String) (lim : Nat),
      generate_realistic_air_quality_data rng loc "" dt lim = []) ∧
    (∀ (rng : Rng) (loc df : String) (lim : Nat),
      generate_realistic_air_quality_data rng loc df "" lim = []) ∧
    (∀ (rng : Rng) (loc df dt : String) (lim : Nat), parseDate df = none →
      generate_realistic_air_quality_data rng loc df dt lim = []) ∧
    (∀ (rng : Rng) (loc df dt : String) (lim : Nat), parseDate dt = none →
      generate_realistic_air_quality_data rng loc df dt lim = []) ∧
    (∀ (rng : Rng) (loc df dt : String) (lim : Nat) (s e : Date),
      parseDate df = some s → parseDate dt = some e → dateLt e s = true →
      generate_realistic_air_quality_data rng loc df dt lim = []) := by
  refine ⟨?_, ?_, ?_, ?_, ?_, ?_⟩
  · intro rng df dt lim
    simp [generate_realistic_air_quality_data]
  · intro rng loc dt lim
    simp [generate_realistic_air_quality_data]
  · intro rng loc df lim
    simp [generate_realistic_air_quality_data]
  · intro rng loc df dt lim h
    unfold generate_realistic_air_quality_data
    split
    · rfl
    · rw [h]
  · intro rng loc df dt lim h
    unfold generate_realistic_air_quality_data
    split
    · rfl
    · rw [h]
      cases parseDate df <;> rfl
  · intro rng loc df dt lim s e hs he hlt
    unfold generate_realistic_air_quality_data
    split
    · rfl
    · rw [hs, he]
      show (if dateLt e s = true then []
        else dayLoop rng loc (get_location_profile loc) lim e
          ((e.year + 1 - s.year) * 366) s []) = []
      rw [if_pos hlt]

/-- C6 (the code's actual behavior at the claim's failing inputs): the
overnight branch of `hour_factor` tests the chained comparison
`20 <= hour <= 6`, which no hour satisfies, so the overnight hours
20-23 and 0-6 get factor 1 — never the 0.6 the claim (and the source's
own comment) intend; the peak and midday branches behave as claimed, and
every output is one of 1.8, 1.3 or 1. -/
theorem C6_hour_factor_bug :
    hour_factor 22 = 1 ∧ hour_factor 23 = 1 ∧ hour_factor 3 = 1 ∧ hour_factor 0 = 1 ∧
    hour_factor 8 = 1.8 ∧ hour_factor 18 = 1.8 ∧ hour_factor 12 = 1.3 ∧
    (∀ hour : Nat, hour_factor hour = 1.8 ∨ hour_factor hour = 1.3 ∨ hour_factor hour = 1) := by
  refine ⟨by norm_num [hour_factor], by norm_num [hour_factor], by norm_num [hour_factor],
    by norm_num [hour_factor], by norm_num [hour_factor], by norm_num [hour_factor],
    by norm_num [hour_factor], ?_⟩
  intro hour
  unfold hour_factor
  split_ifs with h1 h2 h3
  · exact Or.inl rfl
  · exact Or.inr (Or.inl rfl)
  · exact absurd h3 (by omega)
  · exact Or.inr (Or.inr rfl)

theorem generate_some (rng : Rng) (loc df dt : String) (lim : Nat) (s e : Date) (f : Nat)
    (hcond : ¬(loc = "" ∨ df = "" ∨ dt = "")) (hdf : parseDate df = some s)
    (hdt : parseDate dt = some e) (hnlt : ¬ dateLt e s = true)
    (hf : (e.year + 1 - s.year) * 366 = f) :
    generate_realistic_air_quality_data rng loc df dt lim =
      dayLoop rng loc (get_location_profile loc) lim e f s [] := by
  subst hf
  unfold generate_realistic_air_quality_data
  rw [if_neg hcond, hdf, hdt]
  show (if dateLt e s = true then []
    else dayLoop rng loc (get_location_profile loc) lim e
      ((e.year + 1 - s.year) * 366) s []) = _
  rw [if_neg hnlt]

/-- C7: the generator stops as soon as `limit` readings exist, so it
always returns at most `limit` readings; and for the one-day range
2024-01-01 with limit 6 it returns exactly 6 readings, all dated
2024-01-01. -/
theorem C7_limit_stop :
    (∀ (rng : Rng) (location date_from date_to : String) (limit : Nat),
      (generate_realistic_air_quality_data rng location date_from date_to limit).length
        ≤ limit) ∧
    (∀ (rng : Rng) (location : String), location ≠ "" →
      (generate_realistic_air_quality_data rng location "2024-01-01" "2024-01-01" 6).length
        = 6 ∧
      (generate_realistic_air_quality_data rng location "2024-01-01" "2024-01-01" 6).map
        GenRecord.date = List.replicate 6 ⟨2024, 1, 1⟩) := by
  constructor
  · intro rng location date_from date_to limit
    unfold generate_realistic_air_quality_data
    split
    · simp
    · cases parseDate date_from with
      | none => cases parseDate date_to <;> simp
      | some s =>
        cases parseDate date_to with
        | none => simp
        | some e =>
          show (if dateLt e s = true then []
            else dayLoop rng location (get_location_profile location) limit e
              ((e.year + 1 - s.year) * 366) s []).length ≤ limit
          by_cases hlt : dateLt e s = true
          · rw [if_pos hlt]
            simp
          · rw [if_neg hlt]
            exact dayLoop_le rng location _ limit e _ s [] (by simp)
  · intro rng location hloc
    have hcond : ¬(location = "" ∨ ("2024-01-01" : String) = "" ∨
        ("2024-01-01" : String) = "") := by
      simp [hloc]
    have hparse : parseDate "2024-01-01" = some ⟨2024, 1, 1⟩ := by decide
    have key : generate_realistic_air_quality_data rng location "2024-01-01" "2024-01-01" 6 =
        parameters.map (mkRecord rng location (get_location_profile location) ⟨2024, 1, 1⟩ 0
          (tempDraw rng (get_location_profile location) ⟨2024, 1, 1⟩ 0)
          (humDraw rng (get_location_profile location) ⟨2024, 1, 1⟩ 0)
          (uniformDraw (get_location_profile location).pressure.1
            (get_location_profile location).pressure.2 (rng.pDraw ⟨2024, 1, 1⟩ 0))
          (uniformDraw (get_location_profile location).wind_speed.1
            (get_location_profile location).wind_speed.2 (rng.wDraw ⟨2024, 1, 1⟩ 0))) := by
      rw [generate_some rng location "2024-01-01" "2024-01-01" 6 ⟨2024, 1, 1⟩ ⟨2024, 1, 1⟩
        (365 + 1) hcond hparse hparse (by decide) (by decide)]
      rw [dayLoop_step rng location _ 6 ⟨2024, 1, 1⟩ 365 ⟨2024, 1, 1⟩ [] (by decide)]
      have hnext : nextDay ⟨2024, 1, 1⟩ = ⟨2024, 1, 2⟩ := by decide
      rw [hnext, dayLoop_stop rng location _ 6 ⟨2024, 1, 1⟩ 365 ⟨2024, 1, 2⟩ _
        (Or.inl (by decide))]
      have hrange : List.range 24 = 0 ::
          [1, 2, 3, 4, 5, 6, 7, 8, 9, 10, 11, 12, 13, 14, 15, 16, 17, 18,
           19, 20, 21, 22, 23] := by decide
      rw [hrange, List.foldl_cons]
      have h0 : hourStep rng location (get_location_profile location) 6 ⟨2024, 1, 1⟩ [] 0 =
          parameters.map (mkRecord rng location (get_location_profile location) ⟨2024, 1, 1⟩ 0
            (tempDraw rng (get_location_profile location) ⟨2024, 1, 1⟩ 0)
            (humDraw rng (get_location_profile location) ⟨2024, 1, 1⟩ 0)
            (uniformDraw (get_location_profile location).pressure.1
              (get_location_profile location).pressure.2 (rng.pDraw ⟨2024, 1, 1⟩ 0))
            (uniformDraw (get_location_profile location).wind_speed.1
              (get_location_profile location).wind_speed.2 (rng.wDraw ⟨2024, 1, 1⟩ 0))) := by
        unfold hourStep
        rw [if_neg (by decide)]
        rw [paramFold_map rng location _ ⟨2024, 1, 1⟩ 0 _ _ _ _ 6 parameters []
          (by simp [parameters])]
        simp
      rw [h0]
      refine hourFold_stop rng location _ 6 ⟨2024, 1, 1⟩ _ _ ?_
      simp [parameters]
    rw [key]
    constructor <;> rfl

/-- C8: the location profile resolver is total — it always returns one
of the stored profiles; when no key occurs (case-insensitively) in the
input, it returns the `'default'` profile, the same profile an explicit
`"default"` lookup returns (e.g. for `"Atlantis"`). -/
theorem C8_profile_resolver :
    (∀ loc : String, get_location_profile loc ∈ location_profiles.map Prod.snd) ∧
    (∀ loc : String,
      (∀ k ∈ location_profiles.map Prod.fst, substrB k (lowerStr loc) = false) →
      get_location_profile loc = defaultProfile) ∧
    get_location_profile "Atlantis" = defaultProfile ∧
    get_location_profile "default" = defaultProfile := by
  refine ⟨?_, ?_, ?_, ?_⟩
  · intro loc
    rcases profileLookup_total location_profiles (lowerStr loc) with h | h
    · exact h
    · unfold get_location_profile
      rw [h]
      refine List.mem_map.mpr ⟨("default", defaultProfile), ?_, rfl⟩
      unfold location_profiles
      exact List.mem_cons_of_mem _ (List.mem_cons_of_mem _ (List.mem_cons_of_mem _
        (List.mem_cons_of_mem _ (List.mem_cons_of_mem _ (List.mem_cons_of_mem _
          (List.mem_cons_self _ _))))))
  · intro loc h
    exact profileLookup_nomatch location_profiles (lowerStr loc) h
  · exact profileLookup_nomatch location_profiles (lowerStr "Atlantis") (by decide)
  · show profileLookup location_profiles (lowerStr "default") = defaultProfile
    have h1 : substrB "são paulo" (lowerStr "default") = false := by decide
    have h2 : substrB "cuiabá" (lowerStr "default") = false := by decide
    have h3 : substrB "belém" (lowerStr "default") = false := by decide
    have h4 : substrB "tangara" (lowerStr "default") = false := by decide
    have h5 : substrB "london" (lowerStr "default") = false := by decide
    have h6 : substrB "new york" (lowerStr "default") = false := by decide
    have h7 : substrB "default" (lowerStr "default") = true := by decide
    simp [location_profiles, profileLookup, h1, h2, h3, h4, h5, h6, h7]

/-- Witness for C5: a bad date and a reversed range both give the empty
sequence on concrete inputs. -/
theorem C5_witness :
    generate_realistic_air_quality_data rng0 "x" "bad-date-x" "2024-01-01" 5 = [] ∧
    generate_realistic_air_quality_data rng0 "x" "2024-02-01" "2024-01-01" 5 = [] := by
  constructor
  · exact C5_soft_fail.2.2.2.1 rng0 "x" "bad-date-x" "2024-01-01" 5 (by decide)
  · exact C5_soft_fail.2.2.2.2.2 rng0 "x" "2024-02-01" "2024-01-01" 5 ⟨2024, 2, 1⟩
      ⟨2024, 1, 1⟩ (by decide) (by decide) (by decide)

/-- Witness for C7 at a concrete location and randomness source. -/
theorem C7_witness :
    ("Test" : String) ≠ "" ∧
    (generate_realistic_air_quality_data rng0 "Test" "2024-01-01" "2024-01-01" 6).length
      = 6 ∧
    (generate_realistic_air_quality_data rng0 "Test" "2024-01-01" "2024-01-01" 6).map
      GenRecord.date = List.replicate 6 ⟨2024, 1, 1⟩ := by
  refine ⟨by decide, (C7_limit_stop.2 rng0 "Test" (by decide)).1,
    (C7_limit_stop.2 rng0 "Test" (by decide)).2⟩

/-- Witness for C8 at `"Atlantis"`. -/
theorem C8_witness :
    get_location_profile "Atlantis" ∈ location_profiles.map Prod.snd ∧
    (∀ k ∈ location_profiles.map Prod.fst, substrB k (lowerStr "Atlantis") = false) ∧
    get_location_profile "Atlantis" = defaultProfile := by
  exact ⟨C8_profile_resolver.1 "Atlantis", by decide,
    C8_profile_resolver.2.1 "Atlantis" (by decide)⟩

end EcoPredict
